import Mathlib

/-!
Text adventure game (`main.go`): embedding and verified properties.

The program is a single Go file: a state-machine driver `playGame` over a small
set of integer state tags, an inventory (a slice of integer item tags), a shop
loop, and a flat-file save/load pair.

Conventions of the embedding

* `GameState` and `Item` are Go `int` types, so they are `Int` here and the named
  constants are the `iota` values of the source.
* Text is a list of characters (`List Char`); file contents are taken to be
  valid UTF-8, so that splitting at the newline byte and trimming Unicode white
  space act on characters.
* `getCoinCount` counts in a Go `uint`; the count is bounded by the length of
  a slice, which is below the range of `uint`, so it is a `Nat` here.
* Console input is the list of values that successive `fmt.Scanln(&input)` calls
  store in `input`; at end of input the variable keeps its zero value `""`.
  `fmt.Scanln` reads one token delimited by white space, so such a value holds no
  white space; `scanLine` gives the value stored for a typed line.
* Random draws come from a stream `rand : Nat → Nat`; `rand.Intn(n)` is the next
  element of the stream reduced modulo `n`.
-/

namespace GoGame

/-! ## Data model -/

/-- Go: `type GameState int`. -/
abbrev GameState := Int

/-- Go: `Start GameState = iota`. -/
def Start : GameState := 0
/-- Go: second constant of the `iota` block. -/
def Room1 : GameState := 1
/-- Go: third constant of the `iota` block. -/
def Room2 : GameState := 2
/-- Go: fourth constant of the `iota` block. -/
def Room3 : GameState := 3
/-- Go: fifth constant of the `iota` block. -/
def Win : GameState := 4
/-- Go: sixth constant of the `iota` block. -/
def GameOver : GameState := 5
/-- Go: seventh constant of the `iota` block. -/
def Purchase : GameState := 6

/-- Go: `type Item int`. -/
abbrev Item := Int

/-- Go: `Key Item = iota`. -/
def Key : Item := 0
/-- Go: `Coin Item = iota` (second line of the block). -/
def Coin : Item := 1

/-- Text: a sequence of characters. -/
abbrev Text := List Char

/-- A Go `error` value, identified by the text `Error()` returns. -/
structure IOError where
  text : Text
deriving DecidableEq, Repr

deriving instance DecidableEq for Except

/-! ## Inventory helpers -/

/-- Loop of `getCoinCount`: `count++` for every item equal to `Coin`. -/
def getCoinCountLoop : List Item → Nat → Nat
  | [], count => count
  | item :: rest, count =>
    if item = Coin then getCoinCountLoop rest (count + 1) else getCoinCountLoop rest count

/-- Go: `getCoinCount(inventory *[]Item) uint`. -/
def getCoinCount (inventory : List Item) : Nat :=
  getCoinCountLoop inventory 0

/-- Go: `hasKey(inventory *[]Item) bool`: early `return true` at the first `Key`. -/
def hasKey : List Item → Bool
  | [] => false
  | item :: rest => if item = Key then true else hasKey rest

/-- Loop of `filterCoins`: append to `result` every item different from `Coin`. -/
def filterCoinsLoop : List Item → List Item → List Item
  | [], result => result
  | item :: rest, result =>
    if item ≠ Coin then filterCoinsLoop rest (result ++ [item]) else filterCoinsLoop rest result

/-- Go: `filterCoins(inventory []Item) []Item`. -/
def filterCoins (inventory : List Item) : List Item :=
  filterCoinsLoop inventory []

/-! ## Randomness -/

/-- Go: `rand.Intn(n)` applied to the next raw value of the generator. -/
def Intn (raw n : Nat) : Nat := raw % n

/-- Go: `randomGameState()`, as a function of the value `draw` that `rand.Intn(3)`
returns: the conversion `GameState(draw)`. -/
def randomGameState (draw : Nat) : GameState := Int.ofNat draw

/-- Decimal digits of a natural number, most significant first. -/
def decimal (n : Nat) : Text := Nat.toDigits 10 n

/-- Go: `generateKeyCode()`, as a function of the value `draw` that
`rand.Intn(1000000)` returns: `fmt.Sprintf("%06d", draw)`. -/
def generateKeyCode (draw : Nat) : Text :=
  List.replicate (6 - (decimal draw).length) '0' ++ decimal draw

/-- Go: `getRandomRoom1Message()`, as a function of the index `rand.Intn(3)` returns. -/
def getRandomRoom1Message (draw : Nat) : Text :=
  ["You enter Room 1. It's dark and musty. A mysterious sound echoes. You need to find a key to unlock the door.".data,
   "You step into Room 1. The air is heavy, and you can feel a presence. Find the key to proceed.".data,
   "Room 1 welcomes you with darkness. Your only way out is to uncover the key hidden within.".data].getD draw []

/-- Go: `getRandomRoom3Message()`, as a function of the index `rand.Intn(3)` returns. -/
def getRandomRoom3Message (draw : Nat) : Text :=
  ["You enter Room 3. A giant spider blocks your way! You can't proceed this way. Go back to another room.".data,
   "A massive spider guards Room 3. Retreat to another room to escape its web.".data,
   "Room 3 presents a challenge - a giant spider. Your only option is to turn back and explore another path.".data].getD draw []

/-! ## Save file -/

/-- Go: `unicode.IsSpace(r)`: the Latin-1 cases of the switch, then the
`White_Space` table. -/
def isSpace (r : Char) : Bool :=
  let n := r.toNat
  if n ≤ 0xFF then
    n = 0x09 || n = 0x0A || n = 0x0B || n = 0x0C || n = 0x0D || n = 0x20 || n = 0x85 || n = 0xA0
  else
    n = 0x1680 || (0x2000 ≤ n && n ≤ 0x200A) || n = 0x2028 || n = 0x2029 || n = 0x202F
      || n = 0x205F || n = 0x3000

/-- Go: `strings.TrimSpace(s)`: `s` without its leading and trailing white space. -/
def TrimSpace (s : Text) : Text :=
  ((s.dropWhile isSpace).reverse.dropWhile isSpace).reverse

/-- Go: `strings.Split(s, sep)` for a separator of one character, as in the
call `strings.Split(string(content), "\n")`: the pieces of `s` between
consecutive separators; always at least one piece. -/
def Split (s : Text) (sep : Char) : List Text :=
  match s with
  | [] => [[]]
  | c :: cs =>
    if c = sep then [] :: Split cs sep
    else
      match Split cs sep with
      | [] => [[c]]
      | piece :: pieces => (c :: piece) :: pieces

/-- Loop of `saveGameWithKey` over the inventory. `file` is what has been written
so far, `written` the number of `Fprint` calls made so far and `failAt` the
index of the first `Fprint` call that fails, if any. An item that is neither
`Key` nor `Coin` matches no case of the switch and writes nothing. -/
def saveItemsLoop (failAt : Option Nat) (err : IOError) :
    List Item → Text → Nat → Text × Option IOError
  | [], file, _ => (file, none)
  | item :: rest, file, written =>
    if item = Key then
      if failAt = some written then (file, some err)
      else saveItemsLoop failAt err rest (file ++ "Key\n".data) (written + 1)
    else if item = Coin then
      if failAt = some written then (file, some err)
      else saveItemsLoop failAt err rest (file ++ "Coin\n".data) (written + 1)
    else saveItemsLoop failAt err rest file written

/-- Outcome of the operating-system calls of one run of `saveGameWithKey`:
the error of `os.Create`, if it fails, and the index of the first `Fprint` call
that fails, if one does, with its error. -/
structure SaveIO where
  createErr : Option IOError
  failAt : Option Nat
  writeErr : IOError
deriving DecidableEq, Repr

/-- The run of `saveGameWithKey` in which every operating-system call succeeds. -/
def SaveIO.ok : SaveIO := ⟨none, none, ⟨[]⟩⟩

/-- Go: `saveGameWithKey(inventory *[]Item, keyCode string) error`. `disk` is the
content of `save_game.txt` before the call (`none`: no such file); the result is
the content after the call and the returned error (`none` for `nil`).
`os.Create` truncates the file; a failing write is taken to write nothing. -/
def saveGameWithKey (io : SaveIO) (inventory : List Item) (keyCode : Text)
    (disk : Option Text) : Option Text × Option IOError :=
  match io.createErr with
  | some err => (disk, some err)
  | none =>
    if io.failAt = some 0 then (some [], some io.writeErr)
    else
      let r := saveItemsLoop io.failAt io.writeErr inventory
        ("Key Code: ".data ++ keyCode ++ "\n".data) 1
      (some r.1, r.2)

/-- Loop of `loadGame` over `lines[1:]`: trim the line, append `Key` or `Coin`
when the trimmed line is that word. -/
def loadLinesLoop : List Text → List Item → List Item
  | [], inventory => inventory
  | line :: rest, inventory =>
    let line := TrimSpace line
    if line = "Key".data then loadLinesLoop rest (inventory ++ [Key])
    else if line = "Coin".data then loadLinesLoop rest (inventory ++ [Coin])
    else loadLinesLoop rest inventory

/-- Go: `loadGame() ([]Item, error)`, as a function of the result of
`ioutil.ReadFile("save_game.txt")`. A `nil` slice is the empty list. -/
def loadGame (readFile : Except IOError Text) : Except IOError (List Item) :=
  match readFile with
  | .error err => .error err
  | .ok content =>
    let lines := Split content '\n'
    if lines.length < 2 then .ok []
    else .ok (loadLinesLoop (lines.drop 1) [])

/-- Go: `ioutil.ReadFile("save_game.txt")` on a disk whose save file has the given
content; a missing file is an error. -/
def readFile (disk : Option Text) : Except IOError Text :=
  match disk with
  | some content => .ok content
  | none => .error ⟨"open save_game.txt: no such file or directory".data⟩

/-! ## The driver `playGame` as a machine with an explicit call stack -/

/-- What a run does that can be observed, in order. -/
inductive Event where
  /-- A call `playGame(gameState, inventory)` begins. -/
  | enter (gameState : GameState)
  /-- A call `fmt.Scanln(&input)` returns, leaving the given value in `input`. -/
  | scan (input : Text)
  /-- A `fmt.Print*` call writes the given text to standard output. -/
  | print (text : Text)
deriving DecidableEq, Repr

/-- An activation on the call stack of `playGame`. A call that is the last
statement of its case (`case Room1`, `case Room2`, `case Room3`) replaces the
activation of the caller. -/
inductive Frame where
  /-- About to run the body of `playGame(gameState, inventory)`. -/
  | call (gameState : GameState)
  /-- At the head of the `for` loop of `case Start`. -/
  | startLoop
  /-- At the head of the `for` loop of `case Purchase`; `coinCount` is the local
  variable assigned once before the loop. -/
  | purchaseLoop (coinCount : Nat)
  /-- At the head of the `for` loop of the `default` case. -/
  | saveLoop
deriving DecidableEq, Repr

/-- What the run takes from outside: the raw values of the random generator and
the outcome of the operating-system calls of each save attempt. -/
structure Env where
  rand : Nat → Nat
  saveIO : Nat → SaveIO

/-- State of a run. -/
structure Config where
  /-- Pending activations, innermost first; empty when `playGame` has returned. -/
  stack : List Frame
  /-- The slice behind the shared pointer `inventory`. -/
  inventory : List Item
  /-- Values still to be delivered by `fmt.Scanln`. -/
  stdin : List Text
  /-- Number of random values drawn so far. -/
  drawn : Nat
  /-- Number of save attempts made so far. -/
  saves : Nat
  /-- Content of `save_game.txt`, if the file exists. -/
  disk : Option Text
  /-- Events so far, oldest first. -/
  out : List Event
deriving DecidableEq, Repr

/-- Go: `var input string; fmt.Scanln(&input)`: the next value and the remaining
input; at end of input `input` keeps the zero value. -/
def Scanln (stdin : List Text) : Text × List Text :=
  match stdin with
  | [] => ([], [])
  | input :: rest => (input, rest)

/-- Body of `playGame(gameState, inventory)` up to its first call, loop head or
return; `k` is the stack below the activation. -/
def enterState (env : Env) (gameState : GameState) (k : List Frame) (c : Config) : Config :=
  let out := c.out ++ [Event.enter gameState]
  if gameState = Start then
    { c with stack := Frame.startLoop :: k, out := out }
  else if gameState = Room1 then
    let message := getRandomRoom1Message (Intn (env.rand c.drawn) 3)
    if hasKey c.inventory then
      { c with
        stack := Frame.call Win :: k, drawn := c.drawn + 1,
        out := out ++ [Event.print (message ++ "\n".data),
          Event.print "You use the key to unlock the door. The door creaks open.\n".data] }
    else
      { c with
        stack := Frame.call (randomGameState (Intn (env.rand (c.drawn + 1)) 3)) :: k,
        drawn := c.drawn + 2,
        out := out ++ [Event.print (message ++ "\n".data),
          Event.print "You search the room, trying to find the key.\n".data] }
  else if gameState = Room2 then
    let (input, stdin) := Scanln c.stdin
    let out := out ++ [
      Event.print "Room 2 reveals itself to you. A mysterious table is adorned with a key and a coin.\n".data,
      Event.print "What will you do? (Type 'pick up' or 'leave'): ".data,
      Event.scan input]
    if input = "pick up".data then
      { c with
        stack := Frame.call (randomGameState (Intn (env.rand c.drawn) 3)) :: k,
        inventory := c.inventory ++ [Key, Coin], stdin := stdin, drawn := c.drawn + 1,
        out := out ++ [Event.print "You picked up the key and the coin. The room shivers.\n".data] }
    else if input = "leave".data then
      { c with
        stack := Frame.call (randomGameState (Intn (env.rand c.drawn) 3)) :: k,
        stdin := stdin, drawn := c.drawn + 1,
        out := out ++ [Event.print
          "You decide to leave the key and the coin on the table. The room remains still.\n".data] }
    else
      { c with
        stack := Frame.call GameOver :: k, stdin := stdin,
        out := out ++ [Event.print "Invalid choice! The room reacts strangely.\n".data] }
  else if gameState = Room3 then
    let message := getRandomRoom3Message (Intn (env.rand c.drawn) 3)
    { c with
      stack := Frame.call (randomGameState (Intn (env.rand (c.drawn + 1)) 3)) :: k,
      drawn := c.drawn + 2,
      out := out ++ [Event.print (message ++ "\n".data)] }
  else if gameState = Win then
    { c with
      stack := k,
      out := out ++ [Event.print "Congratulations! You unlocked the door and won the game.\n".data] }
  else if gameState = GameOver then
    { c with
      stack := k,
      out := out ++ [Event.print
        "Game Over! You made a wrong choice. The darkness consumes you.\n".data] }
  else if gameState = Purchase then
    let coinCount := getCoinCount c.inventory
    { c with
      stack := Frame.purchaseLoop coinCount :: k,
      out := out ++ [Event.print "Welcome to the item shop!\n".data]
        ++ (if coinCount > 0
            then [Event.print ("You have ".data ++ decimal coinCount ++ " coins.\n".data)]
            else [Event.print "Player has 0 coins.\n".data])
        ++ (if coinCount ≥ 5
            then [Event.print "You can purchase a key to win the game (K - 5 coins).\n".data]
            else [])
        ++ [Event.print "Choose an item to purchase (1. Coin - 2 coins, 2. Back):\n".data] }
  else
    { c with
      stack := Frame.saveLoop :: k,
      out := out ++ [Event.print "Do you want to save the game? (yes/no):\n".data] }

/-- One iteration of the `for` loop of `case Start`, up to the call it makes. -/
def startIter (env : Env) (k : List Frame) (c : Config) : Config :=
  let coinCount := getCoinCount c.inventory
  let (input, stdin) := Scanln c.stdin
  let out := c.out ++ [
    Event.print "Welcome to the Text Adventure Game!\n".data,
    Event.print "You find yourself in a dark room. There are three doors in front of you.\n".data,
    Event.print ("You have ".data ++ decimal coinCount ++ " coins.\n".data),
    Event.print "Choose a door to enter (1, 2, 3):\n".data,
    Event.scan input]
  if input = "1".data ∨ input = "2".data ∨ input = "3".data then
    { c with
      stack := Frame.call (randomGameState (Intn (env.rand c.drawn) 3)) :: Frame.startLoop :: k,
      stdin := stdin, drawn := c.drawn + 1, out := out }
  else
    { c with
      stack := Frame.call GameOver :: Frame.startLoop :: k, stdin := stdin,
      out := out ++ [Event.print "Invalid choice! You stumble in the darkness.\n".data] }

/-- One iteration of the `for` loop of `case Purchase`, up to the call it makes
or the end of the iteration. -/
def purchaseIter (env : Env) (coinCount : Nat) (k : List Frame) (c : Config) : Config :=
  let (input, stdin) := Scanln c.stdin
  let out := c.out ++ [Event.scan input]
  if input = "1".data then
    if coinCount ≥ 2 then
      { c with
        inventory := filterCoins (c.inventory ++ [Coin]) ++ [Coin], stdin := stdin,
        out := out ++ [Event.print "You purchased a coin! The shopkeeper nods.\n".data] }
    else
      { c with
        stdin := stdin,
        out := out ++ [Event.print
          "Not enough coins to purchase the coin. The shopkeeper frowns.\n".data] }
  else if input = "K".data then
    if coinCount ≥ 5 then
      { c with
        stack := Frame.call Win :: k, stdin := stdin,
        out := out ++ [Event.print
          "You purchased a key and won the game! The universe bends to your will.\n".data] }
    else
      { c with
        stdin := stdin,
        out := out ++ [Event.print
          "Not enough coins to purchase the key. The shopkeeper shakes his head.\n".data] }
  else if input = "2".data then
    { c with
      stack := Frame.call (randomGameState (Intn (env.rand c.drawn) 3))
        :: Frame.purchaseLoop coinCount :: k,
      stdin := stdin, drawn := c.drawn + 1, out := out }
  else
    { c with
      stdin := stdin,
      out := out ++ [Event.print "Invalid choice! The shopkeeper looks confused.\n".data] }

/-- One iteration of the `for` loop of the `default` case. -/
def saveIter (env : Env) (c : Config) : Config :=
  let (input, stdin) := Scanln c.stdin
  let out := c.out ++ [Event.scan input]
  if input = "yes".data then
    let keyCode := generateKeyCode (Intn (env.rand c.drawn) 1000000)
    let r := saveGameWithKey (env.saveIO c.saves) c.inventory keyCode c.disk
    { c with
      stdin := stdin, drawn := c.drawn + 1, saves := c.saves + 1, disk := r.1,
      out := out ++ [
        match r.2 with
        | some err => Event.print ("Failed to save the game: ".data ++ err.text ++ "\n".data)
        | none => Event.print ("Game saved with key code: ".data ++ keyCode
            ++ ". The universe remembers.\n".data)] }
  else if input = "no".data then
    { c with
      stdin := stdin,
      out := out ++ [Event.print "Thanks for playing! The adventure ends here.\n".data] }
  else
    { c with
      stdin := stdin,
      out := out ++ [Event.print "Invalid choice! The universe is indifferent.\n".data] }

/-- One step of the run: the innermost activation runs up to its next call, loop
head or return. `none` when the outermost `playGame` has returned. -/
def step (env : Env) (c : Config) : Option Config :=
  match c.stack with
  | [] => none
  | Frame.call gameState :: k => some (enterState env gameState k c)
  | Frame.startLoop :: k => some (startIter env k c)
  | Frame.purchaseLoop coinCount :: k => some (purchaseIter env coinCount k c)
  | Frame.saveLoop :: _ => some (saveIter env c)

/-- Run for at most `fuel` steps. -/
def run (env : Env) : Nat → Config → Config
  | 0, c => c
  | fuel + 1, c =>
    match step env c with
    | none => c
    | some c' => run env fuel c'

/-- The configuration in which `playGame(gameState, &inventory)` is called. -/
def initial (gameState : GameState) (inventory : List Item) (stdin : List Text)
    (disk : Option Text) : Config :=
  { stack := [Frame.call gameState], inventory := inventory, stdin := stdin,
    drawn := 0, saves := 0, disk := disk, out := [] }

/-- Go: `playGame(gameState, inventory)`, run for at most `fuel` steps. -/
def playGame (env : Env) (fuel : Nat) (gameState : GameState) (inventory : List Item)
    (stdin : List Text) (disk : Option Text) : Config :=
  run env fuel (initial gameState inventory stdin disk)

/-- Go: `main()` as a function of the result `read` of `ioutil.ReadFile`, run for
at most `fuel` steps of `playGame`: on a load error the message is printed and
`main` returns. -/
def mainFrom (env : Env) (fuel : Nat) (stdin : List Text) (disk : Option Text)
    (read : Except IOError Text) : Config :=
  match loadGame read with
  | .error err =>
    { stack := [], inventory := [], stdin := stdin, drawn := 0, saves := 0, disk := disk,
      out := [Event.print ("Error loading game: ".data ++ err.text ++ "\n".data)] }
  | .ok inventory => playGame env fuel Start inventory stdin disk

/-- Go: `main()`, run for at most `fuel` steps of `playGame`. -/
def main (env : Env) (fuel : Nat) (stdin : List Text) (disk : Option Text) : Config :=
  mainFrom env fuel stdin disk (readFile disk)

/-- The states entered in a list of events, in order. -/
def entered (out : List Event) : List GameState :=
  out.filterMap fun e => match e with
    | Event.enter gameState => some gameState
    | _ => none

/-- The values read by `fmt.Scanln` in a list of events, in order. -/
def scanned (out : List Event) : List Text :=
  out.filterMap fun e => match e with
    | Event.scan input => some input
    | _ => none

/-- An environment that always draws the same raw value and whose saves succeed. -/
def constEnv (raw : Nat) : Env := ⟨fun _ => raw, fun _ => SaveIO.ok⟩

/-! ## Auxiliary definitions used in the statements -/

/-- What the switch of `saveGameWithKey` writes for one item: its name and a
newline for a Key or a Coin, nothing for any other value. -/
def itemLine (item : Item) : Text :=
  if item = Key then "Key\n".data else if item = Coin then "Coin\n".data else []

/-- What the body of the loop of `loadGame` appends for one line: the item named
by the trimmed line, if it names one. -/
def lineItem (line : Text) : Option Item :=
  if TrimSpace line = "Key".data then some Key
  else if TrimSpace line = "Coin".data then some Coin
  else none

/-- The number a text denotes when read as a decimal numeral, leading zeros
allowed: each character contributes its distance from the character `0`. -/
def decimalValue (s : Text) : Nat :=
  s.foldl (fun acc c => 10 * acc + (c.toNat - '0'.toNat)) 0

/-- Go: the value `fmt.Scanln(&input)` stores in the string `input` when the
line typed is `line` (without its newline): leading white space is skipped and
the token read ends at the next white space. -/
def scanLine (line : Text) : Text :=
  (line.dropWhile isSpace).takeWhile fun r => !isSpace r

/-- A frame that a run started in the Start state can hold when the inventory is
`inventory`: the loop of Start, a call of Start, Room1, Room2 or GameOver, or a
call of Win made while the inventory has a Key. -/
def FrameOK (inventory : List Item) (f : Frame) : Prop :=
  f = Frame.startLoop ∨ f = Frame.call Start ∨ f = Frame.call Room1 ∨ f = Frame.call Room2
    ∨ f = Frame.call GameOver ∨ (f = Frame.call Win ∧ hasKey inventory = true)

/-- Invariant of the runs started in the Start state: every pending frame is one
of `FrameOK`, and every state entered so far is Start, Room1, Room2, Win or
GameOver. -/
def Reach (c : Config) : Prop :=
  (∀ f ∈ c.stack, FrameOK c.inventory f)
    ∧ ∀ gameState ∈ entered c.out,
        gameState = Start ∨ gameState = Room1 ∨ gameState = Room2 ∨ gameState = Win
          ∨ gameState = GameOver

/-- What relates the local `coinCount` of a pending shop loop to the inventory:
the count is below 2, or the inventory holds at least 2 Coins, or the inventory
holds exactly one Coin, as its last entry. -/
def ShopOK (coinCount : Nat) (inventory : List Item) : Prop :=
  coinCount < 2 ∨ getCoinCount inventory ≥ 2
    ∨ inventory = inventory.filter (fun item => item ≠ Coin) ++ [Coin]

/-- Invariant of the runs in which every shop loop was entered by a call of
`playGame(Purchase, inventory)`: every pending shop loop satisfies `ShopOK`. -/
def ShopInv (c : Config) : Prop :=
  ∀ coinCount : Nat, Frame.purchaseLoop coinCount ∈ c.stack → ShopOK coinCount c.inventory

/-- Shape of the stack in the runs started in the Start state: the stack is not
empty, every frame below the innermost one is a loop of Start, and a stack of a
single frame holds the call of Start or a loop of Start. -/
def StartShape (c : Config) : Prop :=
  ∃ (f : Frame) (k : List Frame), c.stack = f :: k
    ∧ (∀ g ∈ k, g = Frame.startLoop)
    ∧ (k = [] → f = Frame.call Start ∨ f = Frame.startLoop)

/-! ## Properties of the inventory helpers and of the random draw -/

theorem getCoinCountLoop_eq (inventory : List Item) (count : Nat) :
    getCoinCountLoop inventory count = count + inventory.count Coin := by
  induction inventory generalizing count with
  | nil => simp [getCoinCountLoop]
  | cons item rest ih =>
    by_cases h : item = Coin
    · simp [getCoinCountLoop, h, ih, List.count_cons]; omega
    · have h' : ¬ (item == Coin) = true := by simpa using h
      simp [getCoinCountLoop, h, ih, List.count_cons, h']

theorem getCoinCount_eq_count (inventory : List Item) :
    getCoinCount inventory = inventory.count Coin := by
  simp [getCoinCount, getCoinCountLoop_eq]

theorem filterCoinsLoop_eq (inventory result : List Item) :
    filterCoinsLoop inventory result = result ++ inventory.filter (fun item => item ≠ Coin) := by
  induction inventory generalizing result with
  | nil => simp [filterCoinsLoop]
  | cons item rest ih =>
    by_cases h : item = Coin
    · simp [filterCoinsLoop, h, ih]
    · simp [filterCoinsLoop, h, ih, List.filter_cons]

theorem filterCoins_eq_filter (inventory : List Item) :
    filterCoins inventory = inventory.filter (fun item => item ≠ Coin) := by
  simp [filterCoins, filterCoinsLoop_eq]

/-- C1: `randomGameState` converts the draw itself to a state, so the draws 0, 1
and 2 give Start, Room1 and Room2: draw 0 gives Start, which is not a room, and
no draw gives Room3. -/
theorem randomGameState_draws :
    randomGameState 0 = Start ∧ randomGameState 1 = Room1 ∧ randomGameState 2 = Room2
      ∧ (∀ draw : Fin 3, randomGameState draw.val ≠ Room3)
      ∧ randomGameState 0 ∉ [Room1, Room2, Room3] := by
  decide

/-- C3: `hasKey` is true exactly when some entry of the inventory is a Key. -/
theorem hasKey_iff (inventory : List Item) :
    hasKey inventory = true ↔ ∃ item ∈ inventory, item = Key := by
  induction inventory with
  | nil => simp [hasKey]
  | cons item rest ih =>
    by_cases h : item = Key
    · simp [hasKey, h]
    · simp [hasKey, h, ih]
      intro h'
      exact absurd h'.symm h

/-- C4: `getCoinCount` is the number of Coin entries of the inventory, and every
reordering of the inventory has the same coin count. -/
theorem getCoinCount_spec (inventory : List Item) :
    getCoinCount inventory = inventory.count Coin
      ∧ ∀ reordered : List Item, reordered.Perm inventory →
          getCoinCount reordered = getCoinCount inventory := by
  refine ⟨getCoinCount_eq_count inventory, fun reordered h => ?_⟩
  rw [getCoinCount_eq_count, getCoinCount_eq_count]
  exact h.count_eq Coin

theorem getCoinCount_spec_witness :
    getCoinCount [Coin, Key, Coin] = 2
      ∧ getCoinCount [Key, Coin, Coin] = getCoinCount [Coin, Key, Coin] :=
  ⟨by decide,
   (getCoinCount_spec [Coin, Key, Coin]).2 [Key, Coin, Coin]
     (List.Perm.swap Coin Key [Coin])⟩

/-! ## Properties of the save file -/

theorem saveItemsLoop_ok (err : IOError) (inventory : List Item) (file : Text) (written : Nat) :
    saveItemsLoop none err inventory file written
      = (file ++ (inventory.map itemLine).flatten, none) := by
  induction inventory generalizing file written with
  | nil => simp [saveItemsLoop]
  | cons item rest ih =>
    by_cases hk : item = Key
    · simp [saveItemsLoop, hk, ih, itemLine]
    · by_cases hc : item = Coin
      · have hck : ¬ (Coin = Key) := by decide
        simp [saveItemsLoop, hc, hck, ih, itemLine]
      · simp [saveItemsLoop, hk, hc, ih, itemLine]

theorem saveGameWithKey_ok (io : SaveIO) (inventory : List Item) (keyCode : Text)
    (disk : Option Text) (hcreate : io.createErr = none) (hwrite : io.failAt = none) :
    saveGameWithKey io inventory keyCode disk
      = (some ("Key Code: ".data ++ keyCode ++ "\n".data ++ (inventory.map itemLine).flatten),
         none) := by
  simp [saveGameWithKey, hcreate, hwrite, saveItemsLoop_ok]

theorem Split_ne_nil (s : Text) (sep : Char) : Split s sep ≠ [] := by
  cases s with
  | nil => simp [Split]
  | cons c cs =>
    by_cases h : c = sep
    · simp [Split, h]
    · simp only [Split, h, if_false]
      split <;> simp

theorem Split_of_not_mem (s : Text) (sep : Char) (h : sep ∉ s) : Split s sep = [s] := by
  induction s with
  | nil => simp [Split]
  | cons c cs ih =>
    have hc : c ≠ sep := fun e => h (by simp [e])
    have hcs : sep ∉ cs := fun e => h (by simp [e])
    simp [Split, hc, ih hcs]

theorem Split_append_sep (s rest : Text) (sep : Char) (h : sep ∉ s) :
    Split (s ++ sep :: rest) sep = s :: Split rest sep := by
  induction s with
  | nil => simp [Split]
  | cons c cs ih =>
    have hc : c ≠ sep := fun e => h (by simp [e])
    have hcs : sep ∉ cs := fun e => h (by simp [e])
    simp [Split, hc, ih hcs]

theorem loadLinesLoop_eq (lines : List Text) (inventory : List Item) :
    loadLinesLoop lines inventory = inventory ++ lines.filterMap lineItem := by
  induction lines generalizing inventory with
  | nil => simp [loadLinesLoop]
  | cons line rest ih =>
    by_cases hk : TrimSpace line = "Key".data
    · simp [loadLinesLoop, lineItem, hk, ih]
    · by_cases hc : TrimSpace line = "Coin".data
      · simp [loadLinesLoop, lineItem, hk, hc, ih]
      · simp [loadLinesLoop, lineItem, hk, hc, ih]

theorem loadGame_ok_eq (content : Text) :
    loadGame (.ok content) = .ok (((Split content '\n').drop 1).filterMap lineItem) := by
  by_cases h : (Split content '\n').length < 2
  · have hd : (Split content '\n').drop 1 = [] := by
      apply List.drop_eq_nil_of_le
      omega
    simp [loadGame, h, hd]
  · simp [loadGame, h, loadLinesLoop_eq]

theorem filterMap_Split_itemLines (inventory : List Item)
    (h : ∀ item ∈ inventory, item = Key ∨ item = Coin) :
    (Split ((inventory.map itemLine).flatten) '\n').filterMap lineItem = inventory := by
  induction inventory with
  | nil => decide
  | cons item rest ih =>
    have hrest : ∀ i ∈ rest, i = Key ∨ i = Coin := fun i hi => h i (by simp [hi])
    rcases h item (by simp) with hk | hc
    · subst hk
      have e : (List.map itemLine (Key :: rest)).flatten
          = "Key".data ++ '\n' :: (rest.map itemLine).flatten := rfl
      rw [e, Split_append_sep _ _ _ (by decide), List.filterMap_cons]
      have e2 : lineItem "Key".data = some Key := by decide
      rw [e2, ih hrest]
    · subst hc
      have e : (List.map itemLine (Coin :: rest)).flatten
          = "Coin".data ++ '\n' :: (rest.map itemLine).flatten := rfl
      rw [e, Split_append_sep _ _ _ (by decide), List.filterMap_cons]
      have e2 : lineItem "Coin".data = some Coin := by decide
      rw [e2, ih hrest]

theorem loadGame_header (header body : Text) (h : '\n' ∉ header) :
    loadGame (.ok (header ++ '\n' :: body))
      = .ok ((Split body '\n').filterMap lineItem) := by
  rw [loadGame_ok_eq, Split_append_sep _ _ _ h]
  rfl

theorem newline_not_mem_header (keyCode : Text) (h : '\n' ∉ keyCode) :
    '\n' ∉ "Key Code: ".data ++ keyCode := by
  intro hmem
  rcases List.mem_append.1 hmem with h1 | h2
  · exact absurd h1 (by decide)
  · exact h h2

theorem newline_not_mem_of_digits (keyCode : Text) (h : ∀ c ∈ keyCode, c.isDigit = true) :
    '\n' ∉ keyCode := fun hmem => absurd (h _ hmem) (by decide)

/-- C2: when the calls of the operating system succeed, loading the content that
`saveGameWithKey` writes for an inventory of Key and Coin entries and a key code
of 6 digits returns no error and the saved inventory, hence as many Keys and
as many Coins as were saved. -/
theorem save_load_roundtrip (io : SaveIO) (inventory : List Item) (keyCode : Text)
    (disk : Option Text) (hcreate : io.createErr = none) (hwrite : io.failAt = none)
    (hitems : ∀ item ∈ inventory, item = Key ∨ item = Coin)
    (_hlen : keyCode.length = 6) (hdigits : ∀ c ∈ keyCode, c.isDigit = true) :
    (saveGameWithKey io inventory keyCode disk).2 = none
      ∧ ∃ loaded : List Item,
          loadGame (readFile (saveGameWithKey io inventory keyCode disk).1) = .ok loaded
            ∧ loaded = inventory
            ∧ loaded.count Key = inventory.count Key
            ∧ loaded.count Coin = inventory.count Coin := by
  have hnl := newline_not_mem_header keyCode (newline_not_mem_of_digits keyCode hdigits)
  rw [saveGameWithKey_ok io inventory keyCode disk hcreate hwrite]
  refine ⟨rfl, inventory, ?_, rfl, rfl, rfl⟩
  have e : "Key Code: ".data ++ keyCode ++ "\n".data ++ (inventory.map itemLine).flatten
      = ("Key Code: ".data ++ keyCode) ++ '\n' :: (inventory.map itemLine).flatten := by
    simp
  simp only [readFile]
  rw [e, loadGame_header _ _ hnl, filterMap_Split_itemLines inventory hitems]

theorem save_load_roundtrip_witness :
    (saveGameWithKey SaveIO.ok [Key, Coin, Coin] "004217".data none).2 = none
      ∧ ∃ loaded : List Item,
          loadGame (readFile (saveGameWithKey SaveIO.ok [Key, Coin, Coin] "004217".data none).1)
              = .ok loaded
            ∧ loaded = [Key, Coin, Coin]
            ∧ loaded.count Key = [Key, Coin, Coin].count Key
            ∧ loaded.count Coin = [Key, Coin, Coin].count Coin :=
  save_load_roundtrip SaveIO.ok [Key, Coin, Coin] "004217".data none rfl rfl
    (by decide) (by decide) (by decide)

/-- C9, as stated, fails: the line ` Key` (with a leading blank) is not exactly
`Key`, yet loading adds a Key for it; so the loaded inventory is not in general
the list of items named exactly by the lines after the first. -/
theorem loadGame_exact_line_counterexample :
    loadGame (.ok "Key Code: 000000\n Key\n".data) = .ok [Key]
      ∧ ¬ ∀ content : Text,
          loadGame (.ok content)
            = .ok (((Split content '\n').drop 1).filterMap fun line =>
                if line = "Key".data then some Key
                else if line = "Coin".data then some Coin
                else none) := by
  refine ⟨by decide, fun h => ?_⟩
  exact absurd (h "Key Code: 000000\n Key\n".data) (by decide)

/-- C9, amended: for every content, loading returns no error and the inventory
made, in order, of one entry for each line after the first whose text without
leading and trailing white space is `Key` (a Key) or `Coin` (a Coin); every other
line adds nothing. -/
theorem loadGame_lines (content : Text) :
    loadGame (.ok content) = .ok (((Split content '\n').drop 1).filterMap lineItem)
      ∧ (∀ line : Text, lineItem line = some Key ↔ TrimSpace line = "Key".data)
      ∧ (∀ line : Text, lineItem line = some Coin ↔ TrimSpace line = "Coin".data)
      ∧ (∀ line : Text, lineItem line = none
          ↔ (TrimSpace line ≠ "Key".data ∧ TrimSpace line ≠ "Coin".data)) := by
  refine ⟨loadGame_ok_eq content, fun line => ?_, fun line => ?_, fun line => ?_⟩
  · by_cases hk : TrimSpace line = "Key".data
    · simp [lineItem, hk]
    · by_cases hc : TrimSpace line = "Coin".data
      · simp [lineItem, hk, hc]; decide
      · simp [lineItem, hk, hc]
  · by_cases hk : TrimSpace line = "Key".data
    · have hne : ¬ ("Key".data = "Coin".data) := by decide
      simp [lineItem, hk, hne]; decide
    · by_cases hc : TrimSpace line = "Coin".data
      · simp [lineItem, hk, hc]
      · simp [lineItem, hk, hc]
  · by_cases hk : TrimSpace line = "Key".data
    · simp [lineItem, hk]
    · by_cases hc : TrimSpace line = "Coin".data
      · simp [lineItem, hk, hc]
      · simp [lineItem, hk, hc]

/-- C10: for a key code without a newline, loading a file that holds only the
header line, with or without its terminating newline, and loading the empty
file, return an empty inventory and no error. -/
theorem loadGame_header_only (keyCode : Text) (h : '\n' ∉ keyCode) :
    loadGame (.ok ("Key Code: ".data ++ keyCode)) = .ok []
      ∧ loadGame (.ok ("Key Code: ".data ++ keyCode ++ "\n".data)) = .ok []
      ∧ loadGame (.ok []) = .ok [] := by
  have hnl := newline_not_mem_header keyCode h
  refine ⟨?_, ?_, by decide⟩
  · rw [loadGame_ok_eq, Split_of_not_mem _ _ hnl]
    rfl
  · have e : "Key Code: ".data ++ keyCode ++ "\n".data
        = ("Key Code: ".data ++ keyCode) ++ '\n' :: [] := rfl
    rw [e, loadGame_header _ _ hnl]
    decide

theorem loadGame_header_only_witness :
    loadGame (.ok "Key Code: 004217".data) = .ok []
      ∧ loadGame (.ok "Key Code: 004217\n".data) = .ok []
      ∧ loadGame (.ok []) = .ok [] :=
  loadGame_header_only "004217".data (by decide)

/-! ## Properties of the driver -/

theorem step_call (env : Env) (c : Config) (gameState : GameState) (k : List Frame)
    (h : c.stack = Frame.call gameState :: k) :
    step env c = some (enterState env gameState k c) := by
  simp [step, h]

theorem step_purchaseLoop (env : Env) (c : Config) (coinCount : Nat) (k : List Frame)
    (h : c.stack = Frame.purchaseLoop coinCount :: k) :
    step env c = some (purchaseIter env coinCount k c) := by
  simp [step, h]

theorem run_succ_of_step (env : Env) (fuel : Nat) (c c' : Config) (h : step env c = some c') :
    run env (fuel + 1) c = run env fuel c' := by
  simp [run, h]

theorem run_zero (env : Env) (c : Config) : run env 0 c = c := rfl

theorem enterState_Purchase (env : Env) (k : List Frame) (c : Config) :
    (enterState env Purchase k c).stack = Frame.purchaseLoop (getCoinCount c.inventory) :: k
      ∧ (enterState env Purchase k c).inventory = c.inventory
      ∧ (enterState env Purchase k c).stdin = c.stdin
      ∧ entered (enterState env Purchase k c).out = entered c.out ++ [Purchase]
      ∧ scanned (enterState env Purchase k c).out = scanned c.out := by
  have h0 : ¬ (Purchase = Start) := by decide
  have h1 : ¬ (Purchase = Room1) := by decide
  have h2 : ¬ (Purchase = Room2) := by decide
  have h3 : ¬ (Purchase = Room3) := by decide
  have h4 : ¬ (Purchase = Win) := by decide
  have h5 : ¬ (Purchase = GameOver) := by decide
  simp only [enterState, h0, h1, h2, h3, h4, h5, if_false, if_true]
  refine ⟨trivial, trivial, trivial, ?_, ?_⟩
  · by_cases a : getCoinCount c.inventory > 0 <;> by_cases b : getCoinCount c.inventory ≥ 5 <;>
      simp [entered, a, b, List.filterMap_append]
  · by_cases a : getCoinCount c.inventory > 0 <;> by_cases b : getCoinCount c.inventory ≥ 5 <;>
      simp [scanned, a, b, List.filterMap_append]

theorem enterState_Win (env : Env) (k : List Frame) (c : Config) :
    enterState env Win k c
      = { c with
          stack := k,
          out := c.out ++ [Event.enter Win,
            Event.print "Congratulations! You unlocked the door and won the game.\n".data] } := by
  have h0 : ¬ (Win = Start) := by decide
  have h1 : ¬ (Win = Room1) := by decide
  have h2 : ¬ (Win = Room2) := by decide
  have h3 : ¬ (Win = Room3) := by decide
  simp [enterState, h0, h1, h2, h3]

/-- One iteration of the shop loop on the input `1` when the local `coinCount` is
at least 2: all Coins are removed and one Coin is appended. -/
theorem purchaseIter_buy (env : Env) (coinCount : Nat) (k : List Frame) (c : Config)
    (rest : List Text) (hcoins : coinCount ≥ 2) (hin : c.stdin = "1".data :: rest) :
    purchaseIter env coinCount k c
      = { c with
          inventory := c.inventory.filter (fun item => item ≠ Coin) ++ [Coin],
          stdin := rest,
          out := c.out ++ [Event.scan "1".data,
            Event.print "You purchased a coin! The shopkeeper nods.\n".data] } := by
  have e : filterCoins (c.inventory ++ [Coin]) = c.inventory.filter (fun item => item ≠ Coin) := by
    simp [filterCoins_eq_filter, List.filter_append]
  simp [purchaseIter, Scanln, hin, hcoins, e]

/-- One iteration of the shop loop on the input `1` when the local `coinCount` is
below 2: only the message is printed. -/
theorem purchaseIter_poor (env : Env) (coinCount : Nat) (k : List Frame) (c : Config)
    (rest : List Text) (hcoins : coinCount < 2) (hin : c.stdin = "1".data :: rest) :
    purchaseIter env coinCount k c
      = { c with
          stdin := rest,
          out := c.out ++ [Event.scan "1".data,
            Event.print "Not enough coins to purchase the coin. The shopkeeper frowns.\n".data] } := by
  have h : ¬ coinCount ≥ 2 := by omega
  simp [purchaseIter, Scanln, hin, h]

/-- One iteration of the shop loop on the input `K` when the local `coinCount` is
at least 5: the loop is left for a call of `playGame(Win, inventory)`. -/
theorem purchaseIter_key (env : Env) (coinCount : Nat) (k : List Frame) (c : Config)
    (rest : List Text) (hcoins : coinCount ≥ 5) (hin : c.stdin = "K".data :: rest) :
    purchaseIter env coinCount k c
      = { c with
          stack := Frame.call Win :: k,
          stdin := rest,
          out := c.out ++ [Event.scan "K".data,
            Event.print
              "You purchased a key and won the game! The universe bends to your will.\n".data] } := by
  have h1 : ¬ ("K".data = "1".data) := by decide
  simp [purchaseIter, Scanln, hin, hcoins, h1]

theorem count_Coin_filter (inventory : List Item) :
    (inventory.filter (fun item => item ≠ Coin) ++ [Coin]).count Coin = 1 := by
  have h : (inventory.filter (fun item => item ≠ Coin)).count Coin = 0 := by
    rw [List.count_eq_zero]
    intro hmem
    simpa using (List.mem_filter.1 hmem).2
  rw [List.count_append, h]
  rfl

theorem filter_filter_Coin (inventory : List Item) :
    (inventory.filter (fun item => item ≠ Coin) ++ [Coin]).filter (fun item => item ≠ Coin)
      = inventory.filter (fun item => item ≠ Coin) := by
  simp [List.filter_append, List.filter_filter]

theorem run_two_Purchase (env : Env) (c : Config) (k : List Frame)
    (hstack : c.stack = Frame.call Purchase :: k) :
    run env 1 c = enterState env Purchase k c
      ∧ run env 2 c
          = purchaseIter env (getCoinCount c.inventory) k (enterState env Purchase k c) := by
  have s1 := step_call env c Purchase k hstack
  have s2 := step_purchaseLoop env (enterState env Purchase k c) _ k
    (enterState_Purchase env k c).1
  refine ⟨?_, ?_⟩
  · rw [run_succ_of_step env 0 c _ s1, run_zero]
  · rw [run_succ_of_step env 1 c _ s1, run_succ_of_step env 0 _ _ s2, run_zero]

/-- C5, as stated, fails: Win and GameOver do not end the run. The `for` loop of
`case Start` goes on after the call it made returns. With the invalid input `x`
the run enters GameOver, which returns to the loop; the loop then reads the
next input `1` and enters a further state. With a Key in the inventory and Room1
drawn, the run enters Win, then reads the next input and enters Room1 again. -/
theorem start_loop_continues_after_terminal :
    entered (playGame (constEnv 1) 3 Start [] ["x".data, "1".data] none).out = [Start, GameOver]
      ∧ scanned (playGame (constEnv 1) 3 Start [] ["x".data, "1".data] none).out = ["x".data]
      ∧ entered (playGame (constEnv 1) 5 Start [] ["x".data, "1".data] none).out
          = [Start, GameOver, Room1]
      ∧ scanned (playGame (constEnv 1) 5 Start [] ["x".data, "1".data] none).out
          = ["x".data, "1".data]
      ∧ entered (playGame (constEnv 1) 4 Start [Key] ["1".data, "2".data] none).out
          = [Start, Room1, Win]
      ∧ scanned (playGame (constEnv 1) 4 Start [Key] ["1".data, "2".data] none).out
          = ["1".data]
      ∧ entered (playGame (constEnv 1) 6 Start [Key] ["1".data, "2".data] none).out
          = [Start, Room1, Win, Room1]
      ∧ scanned (playGame (constEnv 1) 6 Start [Key] ["1".data, "2".data] none).out
          = ["1".data, "2".data] := by
  decide

/-- C6: when `playGame(Purchase, inventory)` is called with at least 2 Coins in
the inventory and the first input is `1`, then after that input is processed the
inventory is the old one without its Coins followed by one Coin: it holds exactly
one Coin, its other entries are those of the old inventory in the same order,
and the run is back at the head of the shop loop. -/
theorem purchase_one_buys_coin (env : Env) (c : Config) (k : List Frame) (rest : List Text)
    (hstack : c.stack = Frame.call Purchase :: k)
    (hcoins : getCoinCount c.inventory ≥ 2)
    (hin : c.stdin = "1".data :: rest) :
    (run env 2 c).inventory = c.inventory.filter (fun item => item ≠ Coin) ++ [Coin]
      ∧ (run env 2 c).inventory.count Coin = 1
      ∧ (run env 2 c).inventory.filter (fun item => item ≠ Coin)
          = c.inventory.filter (fun item => item ≠ Coin)
      ∧ (run env 2 c).stack = Frame.purchaseLoop (getCoinCount c.inventory) :: k
      ∧ (run env 2 c).stdin = rest
      ∧ scanned (run env 2 c).out = scanned c.out ++ ["1".data] := by
  obtain ⟨hs, hi, hn, _, hsc⟩ := enterState_Purchase env k c
  have e := purchaseIter_buy env (getCoinCount c.inventory) k (enterState env Purchase k c) rest
    hcoins (hn.trans hin)
  rw [(run_two_Purchase env c k hstack).2, e]
  refine ⟨?_, ?_, ?_, hs, rfl, ?_⟩
  · simp [hi]
  · simp only [hi]; exact count_Coin_filter c.inventory
  · simp only [hi]; exact filter_filter_Coin c.inventory
  · simp [scanned, List.filterMap_append] at hsc ⊢
    exact hsc

theorem purchase_one_buys_coin_witness :
    (run (constEnv 0) 2 (initial Purchase [Coin, Key, Coin, Coin] ["1".data] none)).inventory
        = [Key, Coin]
      ∧ (run (constEnv 0) 2
          (initial Purchase [Coin, Key, Coin, Coin] ["1".data] none)).inventory.count Coin = 1 :=
  have h := purchase_one_buys_coin (constEnv 0)
    (initial Purchase [Coin, Key, Coin, Coin] ["1".data] none) [] [] rfl (by decide) rfl
  ⟨h.1.trans (by decide), h.2.1⟩

/-- C7: when `playGame(Purchase, inventory)` is called with at least 5 Coins in
the inventory and the first input is `K`, the shop loop is left for the Win
state: Win is entered with the inventory as it was, no Coin is removed, and after
Win returns the call of `playGame(Purchase, inventory)` returns too. -/
theorem purchase_key_wins (env : Env) (c : Config) (k : List Frame) (rest : List Text)
    (hstack : c.stack = Frame.call Purchase :: k)
    (hcoins : getCoinCount c.inventory ≥ 5)
    (hin : c.stdin = "K".data :: rest) :
    (run env 2 c).stack = Frame.call Win :: k
      ∧ (run env 2 c).inventory = c.inventory
      ∧ (run env 3 c).stack = k
      ∧ (run env 3 c).inventory = c.inventory
      ∧ (run env 3 c).stdin = rest
      ∧ (run env 3 c).out = (run env 1 c).out ++ [Event.scan "K".data,
          Event.print
            "You purchased a key and won the game! The universe bends to your will.\n".data,
          Event.enter Win,
          Event.print "Congratulations! You unlocked the door and won the game.\n".data] := by
  obtain ⟨_, hi, hn, _, _⟩ := enterState_Purchase env k c
  have e := purchaseIter_key env (getCoinCount c.inventory) k (enterState env Purchase k c) rest
    hcoins (hn.trans hin)
  have r1 := (run_two_Purchase env c k hstack).1
  have r2 := (run_two_Purchase env c k hstack).2
  have s1 := step_call env c Purchase k hstack
  have s2 := step_purchaseLoop env (enterState env Purchase k c) _ k
    (enterState_Purchase env k c).1
  have hc2 : (purchaseIter env (getCoinCount c.inventory) k (enterState env Purchase k c)).stack
      = Frame.call Win :: k := by rw [e]
  have s3 := step_call env _ Win k hc2
  have r3 : run env 3 c
      = enterState env Win k
          (purchaseIter env (getCoinCount c.inventory) k (enterState env Purchase k c)) := by
    rw [run_succ_of_step env 2 c _ s1, run_succ_of_step env 1 _ _ s2,
      run_succ_of_step env 0 _ _ s3, run_zero]
  rw [r3, r2, r1, enterState_Win, e]
  refine ⟨rfl, hi, rfl, hi, rfl, ?_⟩
  simp

theorem purchase_key_wins_witness :
    (run (constEnv 0) 3
        (initial Purchase [Coin, Coin, Coin, Coin, Coin] ["K".data] none)).stack = []
      ∧ (run (constEnv 0) 3
        (initial Purchase [Coin, Coin, Coin, Coin, Coin] ["K".data] none)).inventory
          = [Coin, Coin, Coin, Coin, Coin] :=
  have h := purchase_key_wins (constEnv 0)
    (initial Purchase [Coin, Coin, Coin, Coin, Coin] ["K".data] none) [] [] rfl (by decide) rfl
  ⟨h.2.2.1, h.2.2.2.1⟩

/-- C8: when `playGame(Purchase, inventory)` is called with fewer than 2 Coins in
the inventory (in particular with none) and the first input is `1`, processing
that input leaves the inventory as it was, prints the message that the coins do
not suffice, and the run is back at the head of the shop loop. -/
theorem purchase_one_without_coins (env : Env) (c : Config) (k : List Frame) (rest : List Text)
    (hstack : c.stack = Frame.call Purchase :: k)
    (hcoins : getCoinCount c.inventory < 2)
    (hin : c.stdin = "1".data :: rest) :
    (run env 2 c).inventory = c.inventory
      ∧ (run env 2 c).stack = Frame.purchaseLoop (getCoinCount c.inventory) :: k
      ∧ (run env 2 c).stdin = rest
      ∧ (run env 2 c).out = (run env 1 c).out ++ [Event.scan "1".data,
          Event.print "Not enough coins to purchase the coin. The shopkeeper frowns.\n".data] := by
  obtain ⟨hs, hi, hn, _, _⟩ := enterState_Purchase env k c
  have e := purchaseIter_poor env (getCoinCount c.inventory) k (enterState env Purchase k c) rest
    hcoins (hn.trans hin)
  rw [(run_two_Purchase env c k hstack).2, (run_two_Purchase env c k hstack).1, e]
  exact ⟨hi, hs, rfl, rfl⟩

theorem purchase_one_without_coins_witness :
    (run (constEnv 0) 2 (initial Purchase [Key] ["1".data] none)).inventory = [Key]
      ∧ (run (constEnv 0) 2 (initial Purchase [Key] ["1".data] none)).stack
          = [Frame.purchaseLoop 0] :=
  have h := purchase_one_without_coins (constEnv 0) (initial Purchase [Key] ["1".data] none)
    [] [] rfl (by decide) rfl
  ⟨h.1, h.2.1⟩

/-! ## Properties of the key code -/

theorem toDigitsCore_eq (n : Nat) :
    ∀ fuel : Nat, n < fuel → ∀ ds : List Char,
      Nat.toDigitsCore 10 fuel n ds = decimal n ++ ds := by
  induction n using Nat.strong_induction_on with
  | _ n ih =>
    intro fuel hfuel ds
    obtain ⟨f, rfl⟩ : ∃ f, fuel = f + 1 := ⟨fuel - 1, by omega⟩
    by_cases h : n / 10 = 0
    · simp [decimal, Nat.toDigits, Nat.toDigitsCore, h]
    · have hlt : n / 10 < n := Nat.div_lt_self (by omega) (by decide)
      have e1 : Nat.toDigitsCore 10 (f + 1) n ds
          = Nat.toDigitsCore 10 f (n / 10) (Nat.digitChar (n % 10) :: ds) := by
        simp [Nat.toDigitsCore, h]
      have e2 : decimal n
          = Nat.toDigitsCore 10 n (n / 10) [Nat.digitChar (n % 10)] := by
        simp [decimal, Nat.toDigits, Nat.toDigitsCore, h]
      rw [e1, e2, ih (n / 10) hlt f (by omega), ih (n / 10) hlt n hlt]
      simp

theorem decimal_small (n : Nat) (h : n < 10) : decimal n = [Nat.digitChar n] := by
  have h0 : n / 10 = 0 := Nat.div_eq_of_lt h
  have h1 : n % 10 = n := Nat.mod_eq_of_lt h
  simp [decimal, Nat.toDigits, Nat.toDigitsCore, h0, h1]

theorem decimal_large (n : Nat) (h : 10 ≤ n) :
    decimal n = decimal (n / 10) ++ [Nat.digitChar (n % 10)] := by
  have h0 : ¬ n / 10 = 0 := by omega
  have hlt : n / 10 < n := Nat.div_lt_self (by omega) (by decide)
  have e2 : decimal n = Nat.toDigitsCore 10 n (n / 10) [Nat.digitChar (n % 10)] := by
    simp [decimal, Nat.toDigits, Nat.toDigitsCore, h0]
  rw [e2, toDigitsCore_eq (n / 10) n hlt]

theorem digitChar_digit (d : Nat) (h : d < 10) :
    (Nat.digitChar d).isDigit = true ∧ (Nat.digitChar d).toNat - '0'.toNat = d := by
  interval_cases d <;> decide

theorem decimalValue_append (s : Text) (c : Char) :
    decimalValue (s ++ [c]) = 10 * decimalValue s + (c.toNat - '0'.toNat) := by
  simp [decimalValue, List.foldl_append]

theorem decimal_spec (n : Nat) :
    (∀ c ∈ decimal n, c.isDigit = true) ∧ decimalValue (decimal n) = n
      ∧ ∀ e : Nat, 0 < e → n < 10 ^ e → (decimal n).length ≤ e := by
  induction n using Nat.strong_induction_on with
  | _ n ih =>
    by_cases h : n < 10
    · rw [decimal_small n h]
      refine ⟨?_, ?_, ?_⟩
      · intro c hc
        rw [List.mem_singleton] at hc
        rw [hc]
        exact (digitChar_digit n h).1
      · have := decimalValue_append [] (Nat.digitChar n)
        simp only [List.nil_append] at this
        rw [this, (digitChar_digit n h).2]
        simp [decimalValue]
      · intro e he _
        simpa using he
    · have hlt : n / 10 < n := Nat.div_lt_self (by omega) (by decide)
      have hmod : n % 10 < 10 := Nat.mod_lt _ (by decide)
      obtain ⟨hd, hv, hl⟩ := ih (n / 10) hlt
      rw [decimal_large n (by omega)]
      refine ⟨?_, ?_, ?_⟩
      · intro c hc
        rcases List.mem_append.1 hc with h1 | h1
        · exact hd c h1
        · rw [List.mem_singleton] at h1
          rw [h1]
          exact (digitChar_digit _ hmod).1
      · rw [decimalValue_append, hv, (digitChar_digit _ hmod).2]
        omega
      · intro e he hn
        obtain ⟨e', rfl⟩ : ∃ e', e = e' + 1 := ⟨e - 1, by omega⟩
        have he' : 0 < e' := by
          rcases Nat.eq_zero_or_pos e' with h0 | h0
          · subst h0
            simp at hn
            omega
          · exact h0
        have hdiv : n / 10 < 10 ^ e' := by
          rw [Nat.div_lt_iff_lt_mul (by decide)]
          rw [pow_succ] at hn
          exact hn
        have := hl e' he' hdiv
        simp only [List.length_append, List.length_singleton]
        omega

theorem decimalValue_zeros (k : Nat) (s : Text) :
    decimalValue (List.replicate k '0' ++ s) = decimalValue s := by
  induction k with
  | zero => simp
  | succ k ih =>
    have e : decimalValue ('0' :: (List.replicate k '0' ++ s))
        = decimalValue (List.replicate k '0' ++ s) := by
      simp [decimalValue]
    rw [List.replicate_succ, List.cons_append, e, ih]

/-- C11: for every draw `n` in [0, 999999] the key code has exactly 6 characters,
all of them decimal digits, and read as a decimal numeral it is `n`. -/
theorem generateKeyCode_spec (n : Nat) (h : n ≤ 999999) :
    (generateKeyCode n).length = 6
      ∧ (∀ c ∈ generateKeyCode n, c.isDigit = true)
      ∧ decimalValue (generateKeyCode n) = n := by
  obtain ⟨hd, hv, hl⟩ := decimal_spec n
  have hlen : (decimal n).length ≤ 6 := hl 6 (by decide) (by omega)
  refine ⟨?_, ?_, ?_⟩
  · simp only [generateKeyCode, List.length_append, List.length_replicate]
    omega
  · intro c hc
    rcases List.mem_append.1 hc with h1 | h1
    · rw [List.eq_of_mem_replicate h1]
      decide
    · exact hd c h1
  · rw [generateKeyCode, decimalValue_zeros, hv]

theorem generateKeyCode_spec_witness :
    (generateKeyCode 4217).length = 6
      ∧ (∀ c ∈ generateKeyCode 4217, c.isDigit = true)
      ∧ decimalValue (generateKeyCode 4217) = 4217 :=
  generateKeyCode_spec 4217 (by decide)

/-! ## The written content, line by line -/

theorem itemLine_of_item (item : Item) (h : item = Key ∨ item = Coin) :
    itemLine item = (if item = Key then "Key".data else "Coin".data) ++ "\n".data := by
  rcases h with h | h
  · subst h; rfl
  · subst h; rfl

theorem Split_item_lines (inventory : List Item)
    (h : ∀ item ∈ inventory, item = Key ∨ item = Coin) :
    Split ((inventory.map itemLine).flatten) '\n'
      = inventory.map (fun item => if item = Key then "Key".data else "Coin".data) ++ [[]] := by
  induction inventory with
  | nil => rfl
  | cons item rest ih =>
    have hrest : ∀ i ∈ rest, i = Key ∨ i = Coin := fun i hi => h i (by simp [hi])
    rcases h item (by simp) with hk | hc
    · subst hk
      have e : (List.map itemLine (Key :: rest)).flatten
          = "Key".data ++ '\n' :: (rest.map itemLine).flatten := rfl
      rw [e, Split_append_sep _ _ _ (by decide), ih hrest]
      rfl
    · subst hc
      have e : (List.map itemLine (Coin :: rest)).flatten
          = "Coin".data ++ '\n' :: (rest.map itemLine).flatten := rfl
      rw [e, Split_append_sep _ _ _ (by decide), ih hrest]
      rfl

/-- C12: when the calls of the operating system succeed, the content written for
an inventory of Key and Coin entries is the line `Key Code: <code>` followed by
one line per entry, `Key` or `Coin`, in inventory order, each ended by a
newline; for a key code without a newline the content splits at the newlines
into the header, the `length(inventory)` item names, and the empty text after
the last newline. -/
theorem saveGameWithKey_content (io : SaveIO) (inventory : List Item) (keyCode : Text)
    (disk : Option Text) (hcreate : io.createErr = none) (hwrite : io.failAt = none)
    (hitems : ∀ item ∈ inventory, item = Key ∨ item = Coin)
    (hcode : '\n' ∉ keyCode) :
    (saveGameWithKey io inventory keyCode disk).2 = none
      ∧ (saveGameWithKey io inventory keyCode disk).1
          = some ("Key Code: ".data ++ keyCode ++ "\n".data
              ++ (inventory.map fun item =>
                    (if item = Key then "Key".data else "Coin".data) ++ "\n".data).flatten)
      ∧ ∃ content : Text, (saveGameWithKey io inventory keyCode disk).1 = some content
          ∧ Split content '\n'
              = ("Key Code: ".data ++ keyCode)
                  :: (inventory.map fun item => if item = Key then "Key".data else "Coin".data)
                  ++ [[]]
          ∧ (Split content '\n').length = (inventory.length + 1) + 1 := by
  have hmap : inventory.map itemLine
      = inventory.map fun item =>
          (if item = Key then "Key".data else "Coin".data) ++ "\n".data :=
    List.map_congr_left fun item hi => itemLine_of_item item (hitems item hi)
  have hsplit : Split ("Key Code: ".data ++ keyCode ++ "\n".data
        ++ (inventory.map itemLine).flatten) '\n'
      = ("Key Code: ".data ++ keyCode)
          :: (inventory.map fun item => if item = Key then "Key".data else "Coin".data)
          ++ [[]] := by
    have e : "Key Code: ".data ++ keyCode ++ "\n".data ++ (inventory.map itemLine).flatten
        = ("Key Code: ".data ++ keyCode) ++ '\n' :: (inventory.map itemLine).flatten := by
      simp
    rw [e, Split_append_sep _ _ _ (newline_not_mem_header keyCode hcode),
      Split_item_lines inventory hitems]
    rfl
  rw [saveGameWithKey_ok io inventory keyCode disk hcreate hwrite]
  refine ⟨rfl, by rw [hmap], _, rfl, hsplit, ?_⟩
  rw [hsplit]
  simp

theorem saveGameWithKey_content_witness :
    (saveGameWithKey SaveIO.ok [Key, Coin, Coin] "004217".data none).2 = none
      ∧ (saveGameWithKey SaveIO.ok [Key, Coin, Coin] "004217".data none).1
          = some "Key Code: 004217\nKey\nCoin\nCoin\n".data :=
  have h := saveGameWithKey_content SaveIO.ok [Key, Coin, Coin] "004217".data none rfl rfl
    (by decide) (by decide)
  ⟨h.1, h.2.1.trans (by decide)⟩

/-! ## Start-up -/

/-- C18: when the save file cannot be read, `loadGame` returns the read error and
no inventory, and `main` prints the error and returns: no state is entered and
no input is read, whatever the fuel. A missing file is such a case. -/
theorem load_error_aborts (env : Env) (fuel : Nat) (stdin : List Text) (disk : Option Text)
    (err : IOError) :
    loadGame (.error err) = .error err
      ∧ (mainFrom env fuel stdin disk (.error err)).out
          = [Event.print ("Error loading game: ".data ++ err.text ++ "\n".data)]
      ∧ (mainFrom env fuel stdin disk (.error err)).stack = []
      ∧ entered (mainFrom env fuel stdin disk (.error err)).out = []
      ∧ scanned (mainFrom env fuel stdin disk (.error err)).out = []
      ∧ (mainFrom env fuel stdin disk (.error err)).stdin = stdin
      ∧ entered (main env fuel stdin none).out = []
      ∧ (main env fuel stdin none).stack = [] := by
  refine ⟨rfl, rfl, rfl, rfl, rfl, rfl, rfl, rfl⟩

/-! ## Effect of one step on the inventory, the stack and the states entered -/

theorem hasKey_true_iff_mem (inventory : List Item) : hasKey inventory = true ↔ Key ∈ inventory := by
  induction inventory with
  | nil => simp [hasKey]
  | cons item rest ih =>
    by_cases h : item = Key
    · simp [hasKey, h]
    · have h' : ¬ Key = item := fun e => h e.symm
      simp [hasKey, h, h', ih]

theorem randomGameState_Intn (raw : Nat) :
    randomGameState (Intn raw 3) = Start ∨ randomGameState (Intn raw 3) = Room1
      ∨ randomGameState (Intn raw 3) = Room2 := by
  have h : raw % 3 < 3 := Nat.mod_lt _ (by decide)
  unfold Intn
  generalize raw % 3 = d at h
  interval_cases d
  · exact Or.inl rfl
  · exact Or.inr (Or.inl rfl)
  · exact Or.inr (Or.inr rfl)

theorem entered_append (out evs : List Event) :
    entered (out ++ evs) = entered out ++ entered evs := by
  simp [entered, List.filterMap_append]

theorem scanned_append (out evs : List Event) :
    scanned (out ++ evs) = scanned out ++ scanned evs := by
  simp [scanned, List.filterMap_append]

theorem enterState_inventory (env : Env) (gameState : GameState) (k : List Frame) (c : Config) :
    (enterState env gameState k c).inventory
      = if gameState = Room2 ∧ (Scanln c.stdin).1 = "pick up".data
        then c.inventory ++ [Key, Coin] else c.inventory := by
  have h20 : ¬ (Room2 = Start) := by decide
  have h21 : ¬ (Room2 = Room1) := by decide
  unfold enterState
  by_cases h2 : gameState = Room2
  · subst h2
    by_cases hp : (Scanln c.stdin).1 = "pick up".data
    · simp [h20, h21, hp]
    · simp only [h20, h21, hp, if_false, if_true, true_and]
      split_ifs <;> rfl
  · simp only [h2, false_and, if_false]
    split_ifs <;> rfl

theorem entered_nil : entered [] = [] := rfl

theorem entered_cons_enter (gameState : GameState) (evs : List Event) :
    entered (Event.enter gameState :: evs) = gameState :: entered evs := rfl

theorem entered_cons_print (text : Text) (evs : List Event) :
    entered (Event.print text :: evs) = entered evs := rfl

theorem entered_cons_scan (input : Text) (evs : List Event) :
    entered (Event.scan input :: evs) = entered evs := rfl

theorem enterState_entered (env : Env) (gameState : GameState) (k : List Frame) (c : Config) :
    entered (enterState env gameState k c).out = entered c.out ++ [gameState] := by
  by_cases h0 : gameState = Start
  · subst h0
    simp only [enterState, if_true, entered_append, entered_cons_enter, entered_cons_print,
      entered_cons_scan, entered_nil, List.append_nil, List.append_assoc]
  by_cases h1 : gameState = Room1
  · subst h1
    simp only [enterState, h0, if_true, if_false]
    split_ifs <;>
    simp only [entered_append, entered_cons_enter, entered_cons_print,
      entered_cons_scan, entered_nil, List.append_nil, List.append_assoc]
  by_cases h2 : gameState = Room2
  · subst h2
    simp only [enterState, h0, h1, if_true, if_false]
    rcases Scanln c.stdin with ⟨input, rest⟩
    dsimp only
    split_ifs <;>
    simp only [entered_append, entered_cons_enter, entered_cons_print,
      entered_cons_scan, entered_nil, List.append_nil, List.append_assoc]
  by_cases h3 : gameState = Room3
  · subst h3
    simp only [enterState, h0, h1, h2, if_true, if_false, entered_append, entered_cons_enter,
      entered_cons_print, entered_cons_scan, entered_nil, List.append_nil, List.append_assoc]
  by_cases h4 : gameState = Win
  · subst h4
    simp only [enterState, h0, h1, h2, h3, if_true, if_false, entered_append, entered_cons_enter,
      entered_cons_print, entered_cons_scan, entered_nil, List.append_nil, List.append_assoc]
  by_cases h5 : gameState = GameOver
  · subst h5
    simp only [enterState, h0, h1, h2, h3, h4, if_true, if_false, entered_append,
      entered_cons_enter, entered_cons_print, entered_cons_scan, entered_nil, List.append_nil,
      List.append_assoc]
  by_cases h6 : gameState = Purchase
  · subst h6
    simp only [enterState, h0, h1, h2, h3, h4, h5, if_true, if_false]
    split_ifs <;>
    simp only [entered_append, entered_cons_enter, entered_cons_print,
      entered_cons_scan, entered_nil, List.append_nil, List.append_assoc]
  · simp only [enterState, h0, h1, h2, h3, h4, h5, h6, if_false, entered_append,
      entered_cons_enter, entered_cons_print, entered_cons_scan, entered_nil, List.append_nil,
      List.append_assoc]

theorem startIter_inventory (env : Env) (k : List Frame) (c : Config) :
    (startIter env k c).inventory = c.inventory := by
  unfold startIter
  rcases Scanln c.stdin with ⟨input, rest⟩
  dsimp only
  split_ifs <;> rfl

theorem startIter_entered (env : Env) (k : List Frame) (c : Config) :
    entered (startIter env k c).out = entered c.out := by
  unfold startIter
  rcases Scanln c.stdin with ⟨input, rest⟩
  dsimp only
  split_ifs <;>
    simp only [entered_append, entered_cons_enter, entered_cons_print,
      entered_cons_scan, entered_nil, List.append_nil, List.append_assoc]

theorem startIter_stack (env : Env) (k : List Frame) (c : Config) :
    ∃ gameState : GameState,
      (startIter env k c).stack = Frame.call gameState :: Frame.startLoop :: k
        ∧ (gameState = GameOver ∨ gameState = Start ∨ gameState = Room1 ∨ gameState = Room2) := by
  unfold startIter
  rcases Scanln c.stdin with ⟨input, rest⟩
  dsimp only
  split_ifs
  · exact ⟨_, rfl, Or.inr (randomGameState_Intn _)⟩
  · exact ⟨_, rfl, Or.inl rfl⟩

theorem saveIter_inventory (env : Env) (c : Config) :
    (saveIter env c).inventory = c.inventory ∧ (saveIter env c).stack = c.stack
      ∧ entered (saveIter env c).out = entered c.out := by
  unfold saveIter
  rcases Scanln c.stdin with ⟨input, rest⟩
  dsimp only
  split_ifs
  · refine ⟨rfl, rfl, ?_⟩
    split <;>
    simp only [entered_append, entered_cons_enter, entered_cons_print,
      entered_cons_scan, entered_nil, List.append_nil, List.append_assoc]
  · exact ⟨rfl, rfl, by
      simp only [entered_append, entered_cons_enter, entered_cons_print,
      entered_cons_scan, entered_nil, List.append_nil, List.append_assoc]⟩
  · exact ⟨rfl, rfl, by
      simp only [entered_append, entered_cons_enter, entered_cons_print,
      entered_cons_scan, entered_nil, List.append_nil, List.append_assoc]⟩

theorem purchaseIter_inventory (env : Env) (coinCount : Nat) (k : List Frame) (c : Config) :
    (purchaseIter env coinCount k c).inventory
      = if (Scanln c.stdin).1 = "1".data ∧ coinCount ≥ 2
        then c.inventory.filter (fun item => item ≠ Coin) ++ [Coin] else c.inventory := by
  have e : filterCoins (c.inventory ++ [Coin]) = c.inventory.filter (fun item => item ≠ Coin) := by
    simp [filterCoins_eq_filter, List.filter_append]
  unfold purchaseIter
  rcases Scanln c.stdin with ⟨input, rest⟩
  dsimp only
  by_cases h1 : input = "1".data
  · by_cases h2 : coinCount ≥ 2
    · simp [h1, h2, e]
    · simp [h1, h2]
  · simp only [h1, false_and, if_false]
    split_ifs <;> rfl

theorem purchaseIter_entered (env : Env) (coinCount : Nat) (k : List Frame) (c : Config) :
    entered (purchaseIter env coinCount k c).out = entered c.out := by
  unfold purchaseIter
  rcases Scanln c.stdin with ⟨input, rest⟩
  dsimp only
  split_ifs <;>
    simp only [entered_append, entered_cons_enter, entered_cons_print,
      entered_cons_scan, entered_nil, List.append_nil, List.append_assoc]

/-- The stack after the body of `playGame(gameState, inventory)` has run up to its
first call, loop head or return, case by case. -/
theorem enterState_stack (env : Env) (gameState : GameState) (k : List Frame) (c : Config) :
    (gameState = Start ∧ (enterState env gameState k c).stack = Frame.startLoop :: k)
    ∨ (gameState = Room1 ∧ hasKey c.inventory = true
        ∧ (enterState env gameState k c).stack = Frame.call Win :: k)
    ∨ (gameState = Room1 ∧ hasKey c.inventory = false
        ∧ (enterState env gameState k c).stack
            = Frame.call (randomGameState (Intn (env.rand (c.drawn + 1)) 3)) :: k)
    ∨ (gameState = Room2
        ∧ ((Scanln c.stdin).1 = "pick up".data ∨ (Scanln c.stdin).1 = "leave".data)
        ∧ (enterState env gameState k c).stack
            = Frame.call (randomGameState (Intn (env.rand c.drawn) 3)) :: k)
    ∨ (gameState = Room2
        ∧ (Scanln c.stdin).1 ≠ "pick up".data ∧ (Scanln c.stdin).1 ≠ "leave".data
        ∧ (enterState env gameState k c).stack = Frame.call GameOver :: k)
    ∨ (gameState = Room3
        ∧ (enterState env gameState k c).stack
            = Frame.call (randomGameState (Intn (env.rand (c.drawn + 1)) 3)) :: k)
    ∨ ((gameState = Win ∨ gameState = GameOver) ∧ (enterState env gameState k c).stack = k)
    ∨ (gameState = Purchase
        ∧ (enterState env gameState k c).stack
            = Frame.purchaseLoop (getCoinCount c.inventory) :: k)
    ∨ ((gameState ≠ Start ∧ gameState ≠ Room1 ∧ gameState ≠ Room2 ∧ gameState ≠ Room3
          ∧ gameState ≠ Win ∧ gameState ≠ GameOver ∧ gameState ≠ Purchase)
        ∧ (enterState env gameState k c).stack = Frame.saveLoop :: k) := by
  by_cases h0 : gameState = Start
  · subst h0
    exact Or.inl ⟨rfl, by simp only [enterState, if_true]⟩
  by_cases h1 : gameState = Room1
  · subst h1
    by_cases hk : hasKey c.inventory = true
    · exact Or.inr (Or.inl ⟨rfl, hk, by simp only [enterState, h0, hk, if_true, if_false]⟩)
    · have hk' : hasKey c.inventory = false := by simpa using hk
      refine Or.inr (Or.inr (Or.inl ⟨rfl, hk', ?_⟩))
      simp only [enterState, h0, hk', Bool.false_eq_true, if_true, if_false]
  by_cases h2 : gameState = Room2
  · subst h2
    by_cases hp : (Scanln c.stdin).1 = "pick up".data
    · refine Or.inr (Or.inr (Or.inr (Or.inl ⟨rfl, Or.inl hp, ?_⟩)))
      simp only [enterState, h0, h1, if_true, if_false]
      rcases hS : Scanln c.stdin with ⟨input, rest⟩
      rw [hS] at hp
      dsimp only at hp ⊢
      rw [if_pos hp]
    · by_cases hl : (Scanln c.stdin).1 = "leave".data
      · refine Or.inr (Or.inr (Or.inr (Or.inl ⟨rfl, Or.inr hl, ?_⟩)))
        simp only [enterState, h0, h1, if_true, if_false]
        rcases hS : Scanln c.stdin with ⟨input, rest⟩
        rw [hS] at hp hl
        dsimp only at hp hl ⊢
        rw [if_neg hp, if_pos hl]
      · refine Or.inr (Or.inr (Or.inr (Or.inr (Or.inl ⟨rfl, hp, hl, ?_⟩))))
        simp only [enterState, h0, h1, if_true, if_false]
        rcases hS : Scanln c.stdin with ⟨input, rest⟩
        rw [hS] at hp hl
        dsimp only at hp hl ⊢
        rw [if_neg hp, if_neg hl]
  by_cases h3 : gameState = Room3
  · subst h3
    refine Or.inr (Or.inr (Or.inr (Or.inr (Or.inr (Or.inl ⟨rfl, ?_⟩)))))
    simp only [enterState, h0, h1, h2, if_true, if_false]
  by_cases h4 : gameState = Win
  · subst h4
    refine Or.inr (Or.inr (Or.inr (Or.inr (Or.inr (Or.inr (Or.inl ⟨Or.inl rfl, ?_⟩))))))
    simp only [enterState, h0, h1, h2, h3, if_true, if_false]
  by_cases h5 : gameState = GameOver
  · subst h5
    refine Or.inr (Or.inr (Or.inr (Or.inr (Or.inr (Or.inr (Or.inl ⟨Or.inr rfl, ?_⟩))))))
    simp only [enterState, h0, h1, h2, h3, h4, if_true, if_false]
  by_cases h6 : gameState = Purchase
  · subst h6
    refine Or.inr (Or.inr (Or.inr (Or.inr (Or.inr (Or.inr (Or.inr (Or.inl ⟨rfl, ?_⟩)))))))
    simp only [enterState, h0, h1, h2, h3, h4, h5, if_true, if_false]
  · refine Or.inr (Or.inr (Or.inr (Or.inr (Or.inr (Or.inr (Or.inr (Or.inr
      ⟨⟨h0, h1, h2, h3, h4, h5, h6⟩, ?_⟩)))))))
    simp only [enterState, h0, h1, h2, h3, h4, h5, h6, if_false]

/-- The stack after one iteration of the shop loop: unchanged, or left for the
Win state on `K` with a local count of at least 5, or a call of a drawn state on
top of the loop on `2`. -/
theorem purchaseIter_stack (env : Env) (coinCount : Nat) (k : List Frame) (c : Config) :
    (purchaseIter env coinCount k c).stack = c.stack
    ∨ ((Scanln c.stdin).1 = "K".data ∧ coinCount ≥ 5
        ∧ (purchaseIter env coinCount k c).stack = Frame.call Win :: k)
    ∨ ((Scanln c.stdin).1 = "2".data
        ∧ (purchaseIter env coinCount k c).stack
            = Frame.call (randomGameState (Intn (env.rand c.drawn) 3))
                :: Frame.purchaseLoop coinCount :: k) := by
  unfold purchaseIter
  rcases Scanln c.stdin with ⟨input, rest⟩
  dsimp only
  by_cases h1 : input = "1".data
  · rw [if_pos h1]
    split_ifs <;> exact Or.inl rfl
  rw [if_neg h1]
  by_cases hK : input = "K".data
  · rw [if_pos hK]
    by_cases h5 : coinCount ≥ 5
    · rw [if_pos h5]
      exact Or.inr (Or.inl ⟨hK, h5, rfl⟩)
    · rw [if_neg h5]
      exact Or.inl rfl
  rw [if_neg hK]
  by_cases h2 : input = "2".data
  · rw [if_pos h2]
    exact Or.inr (Or.inr ⟨h2, rfl⟩)
  · rw [if_neg h2]
    exact Or.inl rfl

theorem step_inventory (env : Env) (c c' : Config) (h : step env c = some c') :
    c'.inventory = c.inventory
    ∨ ((∃ k, c.stack = Frame.call Room2 :: k) ∧ (Scanln c.stdin).1 = "pick up".data
        ∧ c'.inventory = c.inventory ++ [Key, Coin])
    ∨ ((∃ coinCount k, c.stack = Frame.purchaseLoop coinCount :: k ∧ coinCount ≥ 2)
        ∧ (Scanln c.stdin).1 = "1".data
        ∧ c'.inventory = c.inventory.filter (fun item => item ≠ Coin) ++ [Coin]) := by
  rcases hs : c.stack with _ | ⟨f, k⟩
  · simp [step, hs] at h
  · cases f with
    | call gameState =>
      simp only [step, hs, Option.some.injEq] at h
      subst h
      rw [enterState_inventory]
      by_cases hc : gameState = Room2 ∧ (Scanln c.stdin).1 = "pick up".data
      · rw [if_pos hc]
        exact Or.inr (Or.inl ⟨⟨k, by rw [hc.1]⟩, hc.2, rfl⟩)
      · rw [if_neg hc]
        exact Or.inl rfl
    | startLoop =>
      simp only [step, hs, Option.some.injEq] at h
      subst h
      exact Or.inl (startIter_inventory env k c)
    | purchaseLoop coinCount =>
      simp only [step, hs, Option.some.injEq] at h
      subst h
      rw [purchaseIter_inventory]
      by_cases hc : (Scanln c.stdin).1 = "1".data ∧ coinCount ≥ 2
      · rw [if_pos hc]
        exact Or.inr (Or.inr ⟨⟨coinCount, k, rfl, hc.2⟩, hc.1, rfl⟩)
      · rw [if_neg hc]
        exact Or.inl rfl
    | saveLoop =>
      simp only [step, hs, Option.some.injEq] at h
      subst h
      exact Or.inl (saveIter_inventory env c).1

/-! ## The rooms -/

/-- C13: the step of the Room1 state leaves the inventory as it is; the next state
is Win when the inventory contains a Key, and otherwise it is the state that
`randomGameState` makes of the next draw of `rand.Intn(3)`. -/
theorem room1_step (env : Env) (c : Config) (k : List Frame)
    (hstack : c.stack = Frame.call Room1 :: k) :
    ∃ c' : Config, step env c = some c' ∧ c'.inventory = c.inventory
      ∧ ((∃ item ∈ c.inventory, item = Key) → c'.stack = Frame.call Win :: k)
      ∧ ((¬ ∃ item ∈ c.inventory, item = Key) →
          Intn (env.rand (c.drawn + 1)) 3 < 3
            ∧ c'.stack = Frame.call (randomGameState (Intn (env.rand (c.drawn + 1)) 3)) :: k) := by
  have hne : ¬ (Room1 = Room2 ∧ (Scanln c.stdin).1 = "pick up".data) :=
    fun h => absurd h.1 (by decide)
  have hkey : hasKey c.inventory = true ↔ ∃ item ∈ c.inventory, item = Key := by
    rw [hasKey_true_iff_mem]
    simp
  refine ⟨enterState env Room1 k c, step_call env c Room1 k hstack, ?_, ?_, ?_⟩
  · rw [enterState_inventory, if_neg hne]
  · intro hk
    have hk' := hkey.2 hk
    rcases enterState_stack env Room1 k c with h | h | h | h | h | h | h | h | h
    · exact absurd h.1 (by decide)
    · exact h.2.2
    · rw [h.2.1] at hk'
      exact absurd hk' (by decide)
    · exact absurd h.1 (by decide)
    · exact absurd h.1 (by decide)
    · exact absurd h.1 (by decide)
    · rcases h.1 with e | e <;> exact absurd e (by decide)
    · exact absurd h.1 (by decide)
    · exact absurd rfl h.1.2.1
  · intro hk
    have hk' : ¬ hasKey c.inventory = true := fun e => hk (hkey.1 e)
    refine ⟨Nat.mod_lt _ (by decide), ?_⟩
    rcases enterState_stack env Room1 k c with h | h | h | h | h | h | h | h | h
    · exact absurd h.1 (by decide)
    · exact absurd h.2.1 hk'
    · exact h.2.2
    · exact absurd h.1 (by decide)
    · exact absurd h.1 (by decide)
    · exact absurd h.1 (by decide)
    · rcases h.1 with e | e <;> exact absurd e (by decide)
    · exact absurd h.1 (by decide)
    · exact absurd rfl h.1.2.1

theorem room1_step_witness :
    (∃ c' : Config, step (constEnv 2) (initial Room1 [Coin, Key] [] none) = some c'
        ∧ c'.inventory = [Coin, Key] ∧ c'.stack = [Frame.call Win])
      ∧ (∃ c' : Config, step (constEnv 2) (initial Room1 [Coin] [] none) = some c'
        ∧ c'.inventory = [Coin] ∧ c'.stack = [Frame.call Room2]) := by
  obtain ⟨c1, h1, hi1, hw1, _⟩ :=
    room1_step (constEnv 2) (initial Room1 [Coin, Key] [] none) [] rfl
  obtain ⟨c2, h2, hi2, _, hr2⟩ :=
    room1_step (constEnv 2) (initial Room1 [Coin] [] none) [] rfl
  exact ⟨⟨c1, h1, hi1, hw1 (by decide)⟩, ⟨c2, h2, hi2, (hr2 (by decide)).2⟩⟩

/-- The switch of `case Room2` on the value stored in `input`: for `pick up` a Key
and a Coin are appended and a drawn state is called, for `leave` a drawn state
is called, for any other value GameOver is called; in the last two cases the
inventory is unchanged. -/
theorem room2_switch (env : Env) (c : Config) (k : List Frame)
    (hstack : c.stack = Frame.call Room2 :: k) :
    ∃ c' : Config, step env c = some c'
      ∧ ((Scanln c.stdin).1 = "pick up".data →
          c'.inventory = c.inventory ++ [Key, Coin]
            ∧ c'.stack = Frame.call (randomGameState (Intn (env.rand c.drawn) 3)) :: k)
      ∧ ((Scanln c.stdin).1 = "leave".data →
          c'.inventory = c.inventory
            ∧ c'.stack = Frame.call (randomGameState (Intn (env.rand c.drawn) 3)) :: k)
      ∧ ((Scanln c.stdin).1 ≠ "pick up".data → (Scanln c.stdin).1 ≠ "leave".data →
          c'.inventory = c.inventory ∧ c'.stack = Frame.call GameOver :: k) := by
  have hstk : ∀ P : Prop,
      (((Scanln c.stdin).1 = "pick up".data ∨ (Scanln c.stdin).1 = "leave".data) →
        (enterState env Room2 k c).stack
          = Frame.call (randomGameState (Intn (env.rand c.drawn) 3)) :: k → P) →
      ((Scanln c.stdin).1 ≠ "pick up".data → (Scanln c.stdin).1 ≠ "leave".data →
        (enterState env Room2 k c).stack = Frame.call GameOver :: k → P) → P := by
    intro P f g
    rcases enterState_stack env Room2 k c with h | h | h | h | h | h | h | h | h
    · exact absurd h.1 (by decide)
    · exact absurd h.1 (by decide)
    · exact absurd h.1 (by decide)
    · exact f h.2.1 h.2.2
    · exact g h.2.1 h.2.2.1 h.2.2.2
    · exact absurd h.1 (by decide)
    · rcases h.1 with e | e <;> exact absurd e (by decide)
    · exact absurd h.1 (by decide)
    · exact absurd rfl h.1.2.2.1
  refine ⟨enterState env Room2 k c, step_call env c Room2 k hstack, ?_, ?_, ?_⟩
  · intro hp
    refine ⟨by rw [enterState_inventory, if_pos ⟨rfl, hp⟩], ?_⟩
    exact hstk _ (fun _ e => e) (fun np _ _ => absurd hp np)
  · intro hl
    have hnp : (Scanln c.stdin).1 ≠ "pick up".data := by
      rw [hl]
      decide
    refine ⟨by rw [enterState_inventory, if_neg (fun h => hnp h.2)], ?_⟩
    exact hstk _ (fun _ e => e) (fun _ nl _ => absurd hl nl)
  · intro hnp hnl
    refine ⟨by rw [enterState_inventory, if_neg (fun h => hnp h.2)], ?_⟩
    exact hstk _ (fun h _ => (h.elim (fun e => absurd e hnp) (fun e => absurd e hnl)))
      (fun _ _ e => e)

theorem scanLine_no_space (line : Text) : ∀ r ∈ scanLine line, isSpace r = false := by
  intro r hr
  have h := List.mem_takeWhile_imp hr
  simpa using h

/-- C14: `fmt.Scanln(&input)` stores one token without white space, so the line
`pick up` leaves `pick` in `input` and no line leaves `pick up` there. In Room2
the typed line `pick up` therefore takes the default branch: GameOver is called
and the inventory stays empty, no Key and no Coin are appended. -/
theorem room2_pick_up_not_read :
    scanLine "pick up".data = "pick".data
      ∧ (∀ line : Text, scanLine line ≠ "pick up".data)
      ∧ (run (constEnv 1) 1 (initial Room2 [] [scanLine "pick up".data] none)).stack
          = [Frame.call GameOver]
      ∧ (run (constEnv 1) 1 (initial Room2 [] [scanLine "pick up".data] none)).inventory = []
      ∧ scanned (run (constEnv 1) 1 (initial Room2 [] [scanLine "pick up".data] none)).out
          = ["pick".data] := by
  refine ⟨by decide, ?_, by decide, by decide, by decide⟩
  intro line h
  have hs := scanLine_no_space line ' ' (by rw [h]; decide)
  exact absurd hs (by decide)

/-! ## Inventory invariant and frame -/

theorem count_Key_filter (inventory : List Item) :
    (inventory.filter (fun item => item ≠ Coin)).count Key = inventory.count Key := by
  induction inventory with
  | nil => rfl
  | cons item rest ih =>
    by_cases h : item = Coin
    · subst h
      have e : (Coin :: rest).filter (fun item => item ≠ Coin)
          = rest.filter (fun item => item ≠ Coin) := by
        simp
      have hne : ¬ (Coin == Key) = true := by decide
      rw [e, ih, List.count_cons, if_neg hne]
      rfl
    · have e : (item :: rest).filter (fun item => item ≠ Coin)
          = item :: rest.filter (fun item => item ≠ Coin) := by
        simp [h]
      rw [e, List.count_cons, List.count_cons, ih]

/-- C16: in every step of the run, whatever the state, the input and the draw, the
entries that are not Coins are neither removed nor reordered: the inventory
after the step, without its Coins, is the inventory before the step without its
Coins, followed by what the step added; so the number of Keys does not
decrease. -/
theorem noncoin_entries_kept (env : Env) (c c' : Config) (h : step env c = some c') :
    (∃ added : List Item,
        c'.inventory.filter (fun item => item ≠ Coin)
          = c.inventory.filter (fun item => item ≠ Coin) ++ added)
      ∧ c.inventory.count Key ≤ c'.inventory.count Key := by
  have hpre : ∃ added : List Item,
      c'.inventory.filter (fun item => item ≠ Coin)
        = c.inventory.filter (fun item => item ≠ Coin) ++ added := by
    rcases step_inventory env c c' h with e | ⟨_, _, e⟩ | ⟨_, _, e⟩
    · exact ⟨[], by rw [e, List.append_nil]⟩
    · refine ⟨[Key], ?_⟩
      rw [e, List.filter_append]
      rfl
    · exact ⟨[], by rw [e, filter_filter_Coin, List.append_nil]⟩
  refine ⟨hpre, ?_⟩
  obtain ⟨added, e⟩ := hpre
  rw [← count_Key_filter c.inventory, ← count_Key_filter c'.inventory, e, List.count_append]
  omega

theorem noncoin_entries_kept_witness :
    (∃ added : List Item,
        [Key, Coin].filter (fun item => item ≠ Coin)
          = [Coin, Key, Coin].filter (fun item => item ≠ Coin) ++ added)
      ∧ [Coin, Key, Coin].count Key ≤ [Key, Coin].count Key :=
  noncoin_entries_kept (constEnv 0)
    { stack := [Frame.purchaseLoop 2], inventory := [Coin, Key, Coin], stdin := ["1".data],
      drawn := 0, saves := 0, disk := none, out := [] }
    { stack := [Frame.purchaseLoop 2], inventory := [Key, Coin], stdin := [],
      drawn := 0, saves := 0, disk := none,
      out := [Event.scan "1".data,
        Event.print "You purchased a coin! The shopkeeper nods.\n".data] }
    (by decide)

/-- C17: a step changes the inventory only when it is the Room2 step on the input
`pick up` or an iteration of the shop loop on the input `1`. A step of the Start
state (its entry or an iteration of its loop), of Room1, Room3, Win or GameOver,
and the Room2 step on any other input than `pick up`, leaves the inventory as it
was. -/
theorem inventory_frame (env : Env) (c c' : Config) (h : step env c = some c') :
    (c'.inventory ≠ c.inventory →
        ((∃ k, c.stack = Frame.call Room2 :: k) ∧ (Scanln c.stdin).1 = "pick up".data)
        ∨ ((∃ coinCount k, c.stack = Frame.purchaseLoop coinCount :: k)
            ∧ (Scanln c.stdin).1 = "1".data))
      ∧ ((∃ k, c.stack = Frame.startLoop :: k)
          ∨ (∃ gameState k, c.stack = Frame.call gameState :: k
              ∧ (gameState = Start ∨ gameState = Room1 ∨ gameState = Room3 ∨ gameState = Win
                  ∨ gameState = GameOver
                  ∨ (gameState = Room2 ∧ (Scanln c.stdin).1 ≠ "pick up".data)))
          → c'.inventory = c.inventory) := by
  refine ⟨fun hne => ?_, fun hst => ?_⟩
  · rcases step_inventory env c c' h with e | ⟨hk, hp, _⟩ | ⟨⟨cc, k, hk, _⟩, hp, _⟩
    · exact absurd e hne
    · exact Or.inl ⟨hk, hp⟩
    · exact Or.inr ⟨⟨cc, k, hk⟩, hp⟩
  · rcases step_inventory env c c' h with e | ⟨⟨k2, hk⟩, hp, _⟩ | ⟨⟨cc, k2, hk, _⟩, _, _⟩
    · exact e
    · rcases hst with ⟨k, hs⟩ | ⟨gameState, k, hs, hg⟩
      · rw [hs] at hk
        exact absurd hk (by simp)
      · rw [hs] at hk
        have hgs : gameState = Room2 := by
          have hboth : gameState = Room2 ∧ k = k2 := by simpa using hk
          exact hboth.1
        subst hgs
        rcases hg with e | e | e | e | e | e
        · exact absurd e (by decide)
        · exact absurd e (by decide)
        · exact absurd e (by decide)
        · exact absurd e (by decide)
        · exact absurd e (by decide)
        · exact absurd hp e.2
    · rcases hst with ⟨k, hs⟩ | ⟨gameState, k, hs, _⟩
      · rw [hs] at hk
        exact absurd hk (by simp)
      · rw [hs] at hk
        exact absurd hk (by simp)

theorem inventory_frame_witness :
    (run (constEnv 1) 1 (initial Room2 [Key] ["leave".data] none)).inventory = [Key] := by
  have hstep : step (constEnv 1) (initial Room2 [Key] ["leave".data] none)
      = some (run (constEnv 1) 1 (initial Room2 [Key] ["leave".data] none)) := by
    decide
  exact (inventory_frame (constEnv 1) (initial Room2 [Key] ["leave".data] none) _ hstep).2
    (Or.inr ⟨Room2, [], rfl, Or.inr (Or.inr (Or.inr (Or.inr (Or.inr ⟨rfl, by decide⟩))))⟩)

/-! ## Runs started in the Start state -/

theorem run_invariant (env : Env) (P : Config → Prop)
    (hstep : ∀ c c' : Config, P c → step env c = some c' → P c') :
    ∀ (fuel : Nat) (c : Config), P c → P (run env fuel c) := by
  intro fuel
  induction fuel with
  | zero => intro c hc; exact hc
  | succ fuel ih =>
    intro c hc
    rcases hs : step env c with _ | c'
    · simp only [run, hs]
      exact hc
    · simp only [run, hs]
      exact ih c' (hstep c c' hc hs)

theorem hasKey_append (inventory added : List Item) (h : hasKey inventory = true) :
    hasKey (inventory ++ added) = true := by
  rw [hasKey_true_iff_mem] at h ⊢
  exact List.mem_append.2 (Or.inl h)

theorem FrameOK_mono (inventory inventory' : List Item) (f : Frame)
    (hkey : hasKey inventory = true → hasKey inventory' = true) (h : FrameOK inventory f) :
    FrameOK inventory' f := by
  rcases h with h | h | h | h | h | ⟨h1, h2⟩
  all_goals first
    | (subst h; simp [FrameOK])
    | (subst h1; simp [FrameOK, hkey h2])

theorem FrameOK_call (inventory : List Item) (gameState : GameState)
    (h : FrameOK inventory (Frame.call gameState)) :
    gameState = Start ∨ gameState = Room1 ∨ gameState = Room2 ∨ gameState = GameOver
      ∨ (gameState = Win ∧ hasKey inventory = true) := by
  rcases h with h | h | h | h | h | h
  · exact absurd h (by simp)
  · exact Or.inl (Frame.call.inj h)
  · exact Or.inr (Or.inl (Frame.call.inj h))
  · exact Or.inr (Or.inr (Or.inl (Frame.call.inj h)))
  · exact Or.inr (Or.inr (Or.inr (Or.inl (Frame.call.inj h))))
  · exact Or.inr (Or.inr (Or.inr (Or.inr ⟨Frame.call.inj h.1, h.2⟩)))

theorem FrameOK_random (inventory : List Item) (raw : Nat) :
    FrameOK inventory (Frame.call (randomGameState (Intn raw 3))) := by
  rcases randomGameState_Intn raw with h | h | h
  · rw [h]; exact Or.inr (Or.inl rfl)
  · rw [h]; exact Or.inr (Or.inr (Or.inl rfl))
  · rw [h]; exact Or.inr (Or.inr (Or.inr (Or.inl rfl)))

theorem enterState_hasKey (env : Env) (gameState : GameState) (k : List Frame) (c : Config)
    (h : hasKey c.inventory = true) : hasKey (enterState env gameState k c).inventory = true := by
  rw [enterState_inventory]
  split_ifs
  · exact hasKey_append _ _ h
  · exact h

theorem Reach_initial (inventory : List Item) (stdin : List Text) (disk : Option Text) :
    Reach (initial Start inventory stdin disk) := by
  refine ⟨fun f hf => ?_, fun gameState hg => ?_⟩
  · have e : f = Frame.call Start := by simpa [initial] using hf
    exact Or.inr (Or.inl e)
  · simp [initial, entered] at hg

theorem Reach_step (env : Env) (c c' : Config) (hc : Reach c) (h : step env c = some c') :
    Reach c' := by
  obtain ⟨hframes, hent⟩ := hc
  rcases hs : c.stack with _ | ⟨f, k⟩
  · simp [step, hs] at h
  · have hk : ∀ g ∈ k, FrameOK c.inventory g := fun g hg =>
      hframes g (by rw [hs]; exact List.mem_cons_of_mem _ hg)
    have hf : FrameOK c.inventory f := hframes f (by rw [hs]; exact List.mem_cons_self _ _)
    cases f with
    | call gameState =>
      simp only [step, hs, Option.some.injEq] at h
      subst h
      have hmono : ∀ g ∈ k, FrameOK (enterState env gameState k c).inventory g := fun g hg =>
        FrameOK_mono _ _ g (enterState_hasKey env gameState k c) (hk g hg)
      have hgs := FrameOK_call _ _ hf
      refine ⟨?_, ?_⟩
      · intro g hg
        rcases enterState_stack env gameState k c with e | e | e | e | e | e | e | e | e
        · rw [e.2] at hg
          rcases List.mem_cons.1 hg with hg | hg
          · rw [hg]; exact Or.inl rfl
          · exact hmono g hg
        · rw [e.2.2] at hg
          rcases List.mem_cons.1 hg with hg | hg
          · rw [hg]
            exact Or.inr (Or.inr (Or.inr (Or.inr (Or.inr
              ⟨rfl, enterState_hasKey env gameState k c e.2.1⟩))))
          · exact hmono g hg
        · rw [e.2.2] at hg
          rcases List.mem_cons.1 hg with hg | hg
          · rw [hg]; exact FrameOK_random _ _
          · exact hmono g hg
        · rw [e.2.2] at hg
          rcases List.mem_cons.1 hg with hg | hg
          · rw [hg]; exact FrameOK_random _ _
          · exact hmono g hg
        · rw [e.2.2.2] at hg
          rcases List.mem_cons.1 hg with hg | hg
          · rw [hg]; exact Or.inr (Or.inr (Or.inr (Or.inr (Or.inl rfl))))
          · exact hmono g hg
        · rw [e.2] at hg
          rcases List.mem_cons.1 hg with hg | hg
          · rw [hg]; exact FrameOK_random _ _
          · exact hmono g hg
        · rw [e.2] at hg
          exact hmono g hg
        · rcases hgs with x | x | x | x | x
          · rw [e.1] at x; exact absurd x (by decide)
          · rw [e.1] at x; exact absurd x (by decide)
          · rw [e.1] at x; exact absurd x (by decide)
          · rw [e.1] at x; exact absurd x (by decide)
          · rw [e.1] at x; exact absurd x.1 (by decide)
        · rcases hgs with x | x | x | x | x
          · exact absurd x e.1.1
          · exact absurd x e.1.2.1
          · exact absurd x e.1.2.2.1
          · exact absurd x e.1.2.2.2.2.2.1
          · exact absurd x.1 e.1.2.2.2.2.1
      · intro g hg
        rw [enterState_entered] at hg
        rcases List.mem_append.1 hg with hg | hg
        · exact hent g hg
        · rw [List.mem_singleton] at hg
          rw [hg]
          rcases hgs with x | x | x | x | x
          · exact Or.inl x
          · exact Or.inr (Or.inl x)
          · exact Or.inr (Or.inr (Or.inl x))
          · exact Or.inr (Or.inr (Or.inr (Or.inr x)))
          · exact Or.inr (Or.inr (Or.inr (Or.inl x.1)))
    | startLoop =>
      simp only [step, hs, Option.some.injEq] at h
      subst h
      obtain ⟨gameState, hst, hg⟩ := startIter_stack env k c
      refine ⟨?_, ?_⟩
      · intro g hmem
        rw [hst] at hmem
        rw [startIter_inventory]
        rcases List.mem_cons.1 hmem with hmem | hmem
        · rw [hmem]
          rcases hg with x | x | x | x
          · rw [x]; exact Or.inr (Or.inr (Or.inr (Or.inr (Or.inl rfl))))
          · rw [x]; exact Or.inr (Or.inl rfl)
          · rw [x]; exact Or.inr (Or.inr (Or.inl rfl))
          · rw [x]; exact Or.inr (Or.inr (Or.inr (Or.inl rfl)))
        · rcases List.mem_cons.1 hmem with hmem | hmem
          · rw [hmem]; exact Or.inl rfl
          · exact hk g hmem
      · intro g hmem
        rw [startIter_entered] at hmem
        exact hent g hmem
    | purchaseLoop coinCount =>
      rcases hf with x | x | x | x | x | x
      · exact absurd x (by simp)
      · exact absurd x (by simp)
      · exact absurd x (by simp)
      · exact absurd x (by simp)
      · exact absurd x (by simp)
      · exact absurd x.1 (by simp)
    | saveLoop =>
      rcases hf with x | x | x | x | x | x
      · exact absurd x (by simp)
      · exact absurd x (by simp)
      · exact absurd x (by simp)
      · exact absurd x (by simp)
      · exact absurd x (by simp)
      · exact absurd x.1 (by simp)

theorem Reach_playGame (env : Env) (fuel : Nat) (inventory : List Item) (stdin : List Text)
    (disk : Option Text) : Reach (playGame env fuel Start inventory stdin disk) :=
  run_invariant env Reach (Reach_step env) fuel _ (Reach_initial inventory stdin disk)

/-- C15: in every run of `playGame` started in Start, whatever the initial
inventory, the inputs, the draws and the number of steps, every state entered is
one of Start, Room1, Room2, Room3, Win, GameOver (in fact never Room3): the
Purchase state and the default save prompt are never entered, and no shop loop
and no save loop is ever pending. -/
theorem reachable_states (env : Env) (fuel : Nat) (inventory : List Item) (stdin : List Text)
    (disk : Option Text) :
    (∀ gameState ∈ entered (playGame env fuel Start inventory stdin disk).out,
        gameState ∈ [Start, Room1, Room2, Room3, Win, GameOver]
          ∧ gameState ≠ Purchase ∧ gameState ≠ Room3)
      ∧ Frame.saveLoop ∉ (playGame env fuel Start inventory stdin disk).stack
      ∧ ∀ coinCount : Nat,
          Frame.purchaseLoop coinCount ∉ (playGame env fuel Start inventory stdin disk).stack := by
  obtain ⟨hframes, hent⟩ := Reach_playGame env fuel inventory stdin disk
  refine ⟨fun gameState hg => ?_, fun hmem => ?_, fun coinCount hmem => ?_⟩
  · rcases hent gameState hg with x | x | x | x | x <;> subst x <;> decide
  · rcases hframes _ hmem with x | x | x | x | x | x
    · exact absurd x (by simp)
    · exact absurd x (by simp)
    · exact absurd x (by simp)
    · exact absurd x (by simp)
    · exact absurd x (by simp)
    · exact absurd x.1 (by simp)
  · rcases hframes _ hmem with x | x | x | x | x | x
    · exact absurd x (by simp)
    · exact absurd x (by simp)
    · exact absurd x (by simp)
    · exact absurd x (by simp)
    · exact absurd x (by simp)
    · exact absurd x.1 (by simp)

theorem reachable_states_witness :
    entered (playGame (constEnv 2) 6 Start [] ["1".data, "leave".data, "x".data] none).out
        = [Start, Room2, Room2, GameOver]
      ∧ (GameOver ∈ [Start, Room1, Room2, Room3, Win, GameOver]
          ∧ GameOver ≠ Purchase ∧ GameOver ≠ Room3) :=
  ⟨by decide,
   (reachable_states (constEnv 2) 6 [] ["1".data, "leave".data, "x".data] none).1 GameOver
     (by decide)⟩

/-- C20: in every run of `playGame` started in Start, whenever a call of
`playGame(Win, inventory)` is about to run, the inventory contains a Key. -/
theorem win_entered_with_key (env : Env) (fuel : Nat) (inventory : List Item)
    (stdin : List Text) (disk : Option Text) (k : List Frame)
    (hwin : (playGame env fuel Start inventory stdin disk).stack = Frame.call Win :: k) :
    ∃ item ∈ (playGame env fuel Start inventory stdin disk).inventory, item = Key := by
  obtain ⟨hframes, _⟩ := Reach_playGame env fuel inventory stdin disk
  have hf := hframes (Frame.call Win) (by rw [hwin]; exact List.mem_cons_self _ _)
  rcases FrameOK_call _ _ hf with x | x | x | x | x
  · exact absurd x (by decide)
  · exact absurd x (by decide)
  · exact absurd x (by decide)
  · exact absurd x (by decide)
  · exact ⟨Key, (hasKey_true_iff_mem _).1 x.2, rfl⟩

theorem win_entered_with_key_witness :
    (playGame (constEnv 1) 3 Start [Coin, Key] ["1".data] none).stack
        = [Frame.call Win, Frame.startLoop]
      ∧ ∃ item ∈ (playGame (constEnv 1) 3 Start [Coin, Key] ["1".data] none).inventory,
          item = Key :=
  ⟨by decide,
   win_entered_with_key (constEnv 1) 3 [Coin, Key] ["1".data] none [Frame.startLoop]
     (by decide)⟩

/-! ## One visit to the shop -/

theorem ShopOK_entry (inventory : List Item) : ShopOK (getCoinCount inventory) inventory := by
  by_cases h : getCoinCount inventory < 2
  · exact Or.inl h
  · exact Or.inr (Or.inl (by omega))

theorem ShopOK_buy (coinCount : Nat) (inventory : List Item) :
    ShopOK coinCount (inventory.filter (fun item => item ≠ Coin) ++ [Coin]) := by
  refine Or.inr (Or.inr ?_)
  rw [filter_filter_Coin]

theorem ShopOK_pickup (coinCount : Nat) (inventory : List Item)
    (h : ShopOK coinCount inventory) : ShopOK coinCount (inventory ++ [Key, Coin]) := by
  have hadd : getCoinCount (inventory ++ [Key, Coin]) = getCoinCount inventory + 1 := by
    rw [getCoinCount_eq_count, getCoinCount_eq_count, List.count_append]
    rfl
  rcases h with h | h | h
  · exact Or.inl h
  · exact Or.inr (Or.inl (by omega))
  · have hone : getCoinCount inventory = 1 := by
      rw [getCoinCount_eq_count, h]
      exact count_Coin_filter inventory
    exact Or.inr (Or.inl (by omega))

theorem step_purchaseLoop_mem (env : Env) (c c' : Config) (coinCount : Nat)
    (h : step env c = some c') (hm : Frame.purchaseLoop coinCount ∈ c'.stack) :
    Frame.purchaseLoop coinCount ∈ c.stack
      ∨ (coinCount = getCoinCount c.inventory ∧ c'.inventory = c.inventory) := by
  rcases hs : c.stack with _ | ⟨f, k⟩
  · simp [step, hs] at h
  · cases f with
    | call gameState =>
      simp only [step, hs, Option.some.injEq] at h
      subst h
      have tail : Frame.purchaseLoop coinCount ∈ k →
          Frame.purchaseLoop coinCount ∈ Frame.call gameState :: k ∨
            (coinCount = getCoinCount c.inventory
              ∧ (enterState env gameState k c).inventory = c.inventory) :=
        fun hk => Or.inl (List.mem_cons_of_mem _ hk)
      rcases enterState_stack env gameState k c with e | e | e | e | e | e | e | e | e
      · rw [e.2] at hm
        rcases List.mem_cons.1 hm with x | x
        · exact absurd x (by simp)
        · exact tail x
      · rw [e.2.2] at hm
        rcases List.mem_cons.1 hm with x | x
        · exact absurd x (by simp)
        · exact tail x
      · rw [e.2.2] at hm
        rcases List.mem_cons.1 hm with x | x
        · exact absurd x (by simp)
        · exact tail x
      · rw [e.2.2] at hm
        rcases List.mem_cons.1 hm with x | x
        · exact absurd x (by simp)
        · exact tail x
      · rw [e.2.2.2] at hm
        rcases List.mem_cons.1 hm with x | x
        · exact absurd x (by simp)
        · exact tail x
      · rw [e.2] at hm
        rcases List.mem_cons.1 hm with x | x
        · exact absurd x (by simp)
        · exact tail x
      · rw [e.2] at hm
        exact tail hm
      · rw [e.2] at hm
        rcases List.mem_cons.1 hm with x | x
        · refine Or.inr ⟨Frame.purchaseLoop.inj x, ?_⟩
          have hne : ¬ (gameState = Room2 ∧ (Scanln c.stdin).1 = "pick up".data) := by
            rw [e.1]
            exact fun a => absurd a.1 (by decide)
          rw [enterState_inventory, if_neg hne]
        · exact tail x
      · rw [e.2] at hm
        rcases List.mem_cons.1 hm with x | x
        · exact absurd x (by simp)
        · exact tail x
    | startLoop =>
      simp only [step, hs, Option.some.injEq] at h
      subst h
      obtain ⟨gameState, hst, _⟩ := startIter_stack env k c
      rw [hst] at hm
      rcases List.mem_cons.1 hm with x | x
      · exact absurd x (by simp)
      · exact Or.inl x
    | purchaseLoop coinCount0 =>
      simp only [step, hs, Option.some.injEq] at h
      subst h
      rcases purchaseIter_stack env coinCount0 k c with e | e | e
      · rw [e, hs] at hm
        exact Or.inl hm
      · rw [e.2.2] at hm
        rcases List.mem_cons.1 hm with x | x
        · exact absurd x (by simp)
        · exact Or.inl (List.mem_cons_of_mem _ x)
      · rw [e.2] at hm
        rcases List.mem_cons.1 hm with x | x
        · exact absurd x (by simp)
        · exact Or.inl x
    | saveLoop =>
      simp only [step, hs, Option.some.injEq] at h
      subst h
      rw [(saveIter_inventory env c).2.1, hs] at hm
      exact Or.inl hm

theorem ShopInv_step (env : Env) (c c' : Config) (hc : ShopInv c) (h : step env c = some c') :
    ShopInv c' := by
  intro coinCount hm
  rcases step_purchaseLoop_mem env c c' coinCount h hm with hin | ⟨hcc, hinv⟩
  · have hok := hc coinCount hin
    rcases step_inventory env c c' h with e | ⟨_, _, e⟩ | ⟨_, _, e⟩
    · rw [e]; exact hok
    · rw [e]; exact ShopOK_pickup _ _ hok
    · rw [e]; exact ShopOK_buy _ _
  · rw [hinv, hcc]
    exact ShopOK_entry _

theorem ShopInv_initial (inventory : List Item) (stdin : List Text) (disk : Option Text) :
    ShopInv (initial Purchase inventory stdin disk) := by
  intro coinCount hm
  simp [initial] at hm

/-- C19: in a run of `playGame(Purchase, inventory)`, whatever the inventory, the
inputs, the draws and the number of steps already made, when the shop loop is
about to process the input `1`: if that step changes the inventory then the
inventory held at least 2 Coins before it, and if the inventory holds fewer than
2 Coins the step leaves it as it is. -/
theorem shop_one_changes_only_with_two_coins (env : Env) (fuel : Nat) (inventory : List Item)
    (stdin : List Text) (disk : Option Text) (c c' : Config) (coinCount : Nat)
    (k : List Frame) (rest : List Text)
    (hc : c = playGame env fuel Purchase inventory stdin disk)
    (hstack : c.stack = Frame.purchaseLoop coinCount :: k)
    (_hin : c.stdin = "1".data :: rest)
    (hstep : step env c = some c') :
    (c'.inventory ≠ c.inventory → getCoinCount c.inventory ≥ 2)
      ∧ (getCoinCount c.inventory < 2 → c'.inventory = c.inventory) := by
  have hinv : ShopInv c := by
    rw [hc]
    exact run_invariant env ShopInv (ShopInv_step env) fuel _
      (ShopInv_initial inventory stdin disk)
  have hok := hinv coinCount (by rw [hstack]; exact List.mem_cons_self _ _)
  have hc' : c' = purchaseIter env coinCount k c := by
    rw [step_purchaseLoop env c coinCount k hstack] at hstep
    exact (Option.some.inj hstep).symm
  have hlow : getCoinCount c.inventory < 2 → c'.inventory = c.inventory := by
    intro hlt
    rw [hc', purchaseIter_inventory]
    by_cases hcond : (Scanln c.stdin).1 = "1".data ∧ coinCount ≥ 2
    · rw [if_pos hcond]
      rcases hok with x | x | x
      · omega
      · omega
      · exact x.symm
    · rw [if_neg hcond]
  refine ⟨fun hne => ?_, hlow⟩
  by_contra hlt
  exact hne (hlow (by omega))

theorem shop_one_changes_only_with_two_coins_witness :
    getCoinCount
        (playGame (constEnv 0) 2 Purchase [Coin, Coin, Coin] ["1".data, "1".data] none).inventory
        < 2
      ∧ (playGame (constEnv 0) 3 Purchase [Coin, Coin, Coin] ["1".data, "1".data] none).inventory
          = (playGame (constEnv 0) 2 Purchase [Coin, Coin, Coin]
              ["1".data, "1".data] none).inventory :=
  ⟨by decide,
   (shop_one_changes_only_with_two_coins (constEnv 0) 2 [Coin, Coin, Coin]
      ["1".data, "1".data] none
      (playGame (constEnv 0) 2 Purchase [Coin, Coin, Coin] ["1".data, "1".data] none)
      (playGame (constEnv 0) 3 Purchase [Coin, Coin, Coin] ["1".data, "1".data] none)
      3 [] [] rfl (by decide) (by decide) (by decide)).2 (by decide)⟩

/-! ## Win and GameOver return into the loop of Start -/

theorem scanned_nil : scanned [] = [] := rfl

theorem scanned_cons_enter (gameState : GameState) (evs : List Event) :
    scanned (Event.enter gameState :: evs) = scanned evs := rfl

theorem scanned_cons_print (text : Text) (evs : List Event) :
    scanned (Event.print text :: evs) = scanned evs := rfl

theorem scanned_cons_scan (input : Text) (evs : List Event) :
    scanned (Event.scan input :: evs) = input :: scanned evs := rfl

theorem step_startLoop (env : Env) (c : Config) (k : List Frame)
    (h : c.stack = Frame.startLoop :: k) :
    step env c = some (startIter env k c) := by
  simp [step, h]

theorem enterState_GameOver (env : Env) (k : List Frame) (c : Config) :
    enterState env GameOver k c
      = { c with
          stack := k,
          out := c.out ++ [Event.enter GameOver,
            Event.print
              "Game Over! You made a wrong choice. The darkness consumes you.\n".data] } := by
  have h0 : ¬ (GameOver = Start) := by decide
  have h1 : ¬ (GameOver = Room1) := by decide
  have h2 : ¬ (GameOver = Room2) := by decide
  have h3 : ¬ (GameOver = Room3) := by decide
  have h4 : ¬ (GameOver = Win) := by decide
  simp [enterState, h0, h1, h2, h3, h4]

/-- What the body of `case Win` and of `case GameOver` does: it prints, reads no
input, leaves the inventory as it is and returns. -/
theorem enterState_terminal (env : Env) (gameState : GameState) (k : List Frame) (c : Config)
    (hgs : gameState = Win ∨ gameState = GameOver) :
    (enterState env gameState k c).stack = k
      ∧ (enterState env gameState k c).inventory = c.inventory
      ∧ (enterState env gameState k c).stdin = c.stdin
      ∧ (enterState env gameState k c).drawn = c.drawn
      ∧ scanned (enterState env gameState k c).out = scanned c.out := by
  rcases hgs with h | h
  · subst h
    rw [enterState_Win]
    refine ⟨rfl, rfl, rfl, rfl, ?_⟩
    simp only [scanned_append, scanned_cons_enter, scanned_cons_print, scanned_nil,
      List.append_nil]
  · subst h
    rw [enterState_GameOver]
    refine ⟨rfl, rfl, rfl, rfl, ?_⟩
    simp only [scanned_append, scanned_cons_enter, scanned_cons_print, scanned_nil,
      List.append_nil]

theorem startIter_scanned (env : Env) (k : List Frame) (c : Config) :
    scanned (startIter env k c).out = scanned c.out ++ [(Scanln c.stdin).1] := by
  unfold startIter
  rcases Scanln c.stdin with ⟨input, rest⟩
  dsimp only
  split_ifs <;>
    simp only [scanned_append, scanned_cons_enter, scanned_cons_print, scanned_cons_scan,
      scanned_nil, List.append_nil, List.append_assoc]

theorem StartShape_initial (inventory : List Item) (stdin : List Text) (disk : Option Text) :
    StartShape (initial Start inventory stdin disk) :=
  ⟨Frame.call Start, [], rfl, fun _ hg => absurd hg (List.not_mem_nil _), fun _ => Or.inl rfl⟩

theorem StartShape_step (env : Env) (c c' : Config) (hc : Reach c ∧ StartShape c)
    (h : step env c = some c') : Reach c' ∧ StartShape c' := by
  refine ⟨Reach_step env c c' hc.1 h, ?_⟩
  obtain ⟨⟨hframes, _⟩, f, k, hst, hall, hbot⟩ := hc
  have hf : FrameOK c.inventory f := hframes f (by rw [hst]; exact List.mem_cons_self _ _)
  cases f with
  | call gameState =>
    rw [step_call env c gameState k hst] at h
    have hc' := (Option.some.inj h).symm
    subst hc'
    by_cases hk : k = []
    · have hgs : gameState = Start := by
        rcases hbot hk with x | x
        · exact Frame.call.inj x
        · exact absurd x (by simp)
      subst hgs
      have hs : (enterState env Start k c).stack = Frame.startLoop :: k := by
        simp only [enterState, if_true]
      exact ⟨Frame.startLoop, k, hs, hall, fun _ => Or.inr rfl⟩
    · have push : ∀ g : Frame, (enterState env gameState k c).stack = g :: k →
          StartShape (enterState env gameState k c) :=
        fun g e => ⟨g, k, e, hall, fun hk' => absurd hk' hk⟩
      rcases enterState_stack env gameState k c with e | e | e | e | e | e | e | e | e
      · exact push _ e.2
      · exact push _ e.2.2
      · exact push _ e.2.2
      · exact push _ e.2.2
      · exact push _ e.2.2.2
      · exact push _ e.2
      · rcases hkk : k with _ | ⟨g, k2⟩
        · exact absurd hkk hk
        · have hg : g = Frame.startLoop := hall g (by rw [hkk]; exact List.mem_cons_self _ _)
          refine ⟨g, k2, by rw [← hkk]; exact e.2, fun g' hg' => ?_, fun _ => Or.inr hg⟩
          exact hall g' (by rw [hkk]; exact List.mem_cons_of_mem _ hg')
      · exact push _ e.2
      · exact push _ e.2
  | startLoop =>
    rw [step_startLoop env c k hst] at h
    have hc' := (Option.some.inj h).symm
    subst hc'
    obtain ⟨gameState, hs, _⟩ := startIter_stack env k c
    refine ⟨Frame.call gameState, Frame.startLoop :: k, hs, fun g hg => ?_,
      fun hnil => absurd hnil (by simp)⟩
    rcases List.mem_cons.1 hg with x | x
    · exact x
    · exact hall g x
  | purchaseLoop coinCount =>
    rcases hf with x | x | x | x | x | x
    all_goals exact absurd x (by simp)
  | saveLoop =>
    rcases hf with x | x | x | x | x | x
    all_goals exact absurd x (by simp)

theorem StartShape_playGame (env : Env) (fuel : Nat) (inventory : List Item)
    (stdin : List Text) (disk : Option Text) :
    StartShape (playGame env fuel Start inventory stdin disk) :=
  (run_invariant env (fun c => Reach c ∧ StartShape c) (StartShape_step env) fuel _
    ⟨Reach_initial inventory stdin disk, StartShape_initial inventory stdin disk⟩).2

/-- A run of `playGame` started in Start never returns: after any number of steps
some activation is still pending. -/
theorem start_run_never_returns (env : Env) (fuel : Nat) (inventory : List Item)
    (stdin : List Text) (disk : Option Text) :
    (playGame env fuel Start inventory stdin disk).stack ≠ [] := by
  obtain ⟨f, k, hst, _, _⟩ := StartShape_playGame env fuel inventory stdin disk
  rw [hst]
  exact List.cons_ne_nil f k

/-- C5, amended: Win and GameOver end only their own call. In every run of
`playGame` started in Start, when a call of Win or of GameOver is about to run:
that call reads no input, enters no further state and leaves the inventory as it
is, and it returns into a loop of the Start state; the next step is then an
iteration of that loop, which reads the next input and calls a further state. -/
theorem terminal_returns_to_start_loop (env : Env) (fuel : Nat) (inventory : List Item)
    (stdin : List Text) (disk : Option Text) (c : Config) (gameState : GameState)
    (k : List Frame)
    (hc : c = playGame env fuel Start inventory stdin disk)
    (hgs : gameState = Win ∨ gameState = GameOver)
    (hstack : c.stack = Frame.call gameState :: k) :
    ∃ (k' : List Frame) (c1 c2 : Config) (next : GameState),
      k = Frame.startLoop :: k'
        ∧ step env c = some c1
        ∧ c1.stack = Frame.startLoop :: k'
        ∧ c1.inventory = c.inventory
        ∧ c1.stdin = c.stdin
        ∧ scanned c1.out = scanned c.out
        ∧ entered c1.out = entered c.out ++ [gameState]
        ∧ step env c1 = some c2
        ∧ scanned c2.out = scanned c.out ++ [(Scanln c.stdin).1]
        ∧ c2.inventory = c.inventory
        ∧ c2.stack = Frame.call next :: Frame.startLoop :: k' := by
  have hshape : StartShape c := by
    rw [hc]
    exact StartShape_playGame env fuel inventory stdin disk
  obtain ⟨f, k0, hst, hall, hbot⟩ := hshape
  have hfk : f = Frame.call gameState ∧ k0 = k := by
    rw [hstack] at hst
    have h2 := List.cons.inj hst
    exact ⟨h2.1.symm, h2.2.symm⟩
  obtain ⟨hf, hk0⟩ := hfk
  subst hk0
  subst hf
  rcases hkk : k0 with _ | ⟨g, k'⟩
  · rcases hbot hkk with x | x
    · have hs : gameState = Start := Frame.call.inj x
      rcases hgs with y | y
      · rw [y] at hs; exact absurd hs (by decide)
      · rw [y] at hs; exact absurd hs (by decide)
    · exact absurd x (by simp)
  · have hg : g = Frame.startLoop := hall g (by rw [hkk]; exact List.mem_cons_self _ _)
    subst hg
    obtain ⟨t1, t2, t3, _, t5⟩ := enterState_terminal env gameState k0 c hgs
    have hs1 : (enterState env gameState k0 c).stack = Frame.startLoop :: k' := by
      rw [t1, hkk]
    obtain ⟨next, hs2, _⟩ := startIter_stack env k' (enterState env gameState k0 c)
    refine ⟨k', enterState env gameState k0 c,
      startIter env k' (enterState env gameState k0 c), next, rfl,
      step_call env c gameState k0 hstack, hs1, t2, t3, t5,
      enterState_entered env gameState k0 c,
      step_startLoop env _ k' hs1, ?_, ?_, hs2⟩
    · rw [startIter_scanned, t5, t3]
    · rw [startIter_inventory, t2]

theorem terminal_returns_to_start_loop_witness :
    ∃ (k' : List Frame) (c1 c2 : Config) (next : GameState),
      [Frame.startLoop] = Frame.startLoop :: k'
        ∧ step (constEnv 1) (playGame (constEnv 1) 2 Start [] ["x".data, "1".data] none) = some c1
        ∧ c1.stack = Frame.startLoop :: k'
        ∧ c1.inventory = (playGame (constEnv 1) 2 Start [] ["x".data, "1".data] none).inventory
        ∧ c1.stdin = (playGame (constEnv 1) 2 Start [] ["x".data, "1".data] none).stdin
        ∧ scanned c1.out
            = scanned (playGame (constEnv 1) 2 Start [] ["x".data, "1".data] none).out
        ∧ entered c1.out
            = entered (playGame (constEnv 1) 2 Start [] ["x".data, "1".data] none).out
                ++ [GameOver]
        ∧ step (constEnv 1) c1 = some c2
        ∧ scanned c2.out
            = scanned (playGame (constEnv 1) 2 Start [] ["x".data, "1".data] none).out
                ++ [(Scanln (playGame (constEnv 1) 2 Start [] ["x".data, "1".data] none).stdin).1]
        ∧ c2.inventory = (playGame (constEnv 1) 2 Start [] ["x".data, "1".data] none).inventory
        ∧ c2.stack = Frame.call next :: Frame.startLoop :: k' :=
  terminal_returns_to_start_loop (constEnv 1) 2 [] ["x".data, "1".data] none
    (playGame (constEnv 1) 2 Start [] ["x".data, "1".data] none) GameOver [Frame.startLoop]
    rfl (Or.inr rfl) (by decide)

end GoGame
